import Mathlib

/-!
Signature reconciliation of `src/G2.h`.

A shallow embedding of `SingleArg`, `SingleArgInferrer` and `ArgInfoDetector`
from `src/G2.h`, followed by theorems about them.

Conventions of the embedding:

* `user_assert` / `internal_assert` / `internal_error` abort the computation;
  they are modelled in the `Except Failure` monad, one `Failure` constructor per
  assertion site, so that the two error classes can be told apart.
* `int dimensions` is an `Int`; the code only compares it (`d >= 0`, `==`) and
  never does arithmetic on it, so no wrap-around can occur.
* the braced initialiser list of `SingleArg::match` evaluates its elements from
  left to right, which is the order of the binds below.
* writes to `std::cerr` / `std::cout` are not modelled.
-/

namespace Halide

/-- Modelled from the spec: the type code of a Halide `Type` (declared in
`Type.h`, which is not among the sources): signed integer, unsigned integer,
floating point, opaque handle, bfloat. -/
inductive TypeCode where
  | Int
  | UInt
  | Float
  | Handle
  | BFloat
  deriving DecidableEq, Repr

/-- Modelled from the spec: the Type Descriptor (`Halide::Type`, declared in
`Type.h`, which is not among the sources): a value describing an element type
by code, bit width and number of lanes, with no logic beyond equality. -/
structure HalideType where
  code : TypeCode
  bits : Nat
  lanes : Nat
  deriving DecidableEq, Repr

namespace HalideType

/-- Modelled from the spec: `Type::is_scalar()`, true when there is one lane. -/
def is_scalar (t : HalideType) : Bool := t.lanes == 1

/-- Modelled from the spec: `Type::is_int()`, a signed integer type. -/
def is_int (t : HalideType) : Bool := t.code == TypeCode.Int

/-- Modelled from the spec: `Type::is_uint()`, an unsigned integer type. -/
def is_uint (t : HalideType) : Bool := t.code == TypeCode.UInt

/-- Modelled from the spec: `Type::is_float()`, a floating-point type. -/
def is_float (t : HalideType) : Bool :=
  t.code == TypeCode.Float || t.code == TypeCode.BFloat

end HalideType

/-- Modelled from the spec: the helper `Int(bits)` of `Type.h`, the scalar
signed integer type of the given width. -/
def Int_ (bits : Nat) : HalideType := ⟨TypeCode.Int, bits, 1⟩

/-- Modelled from the spec: `enum class IOKind` of `AbstractGenerator.h` (not
among the sources); its three values are the ones printed by `operator<<` in
`G2.h`. -/
inductive IOKind where
  | Scalar
  | Function
  | Buffer
  deriving DecidableEq, Repr

/-- Modelled from the spec: `AbstractGenerator::ArgInfo` (the Canonical
Argument Info), an aggregate of name, kind, element types and dimensions, in
the order `to_arginfo` initialises it. -/
structure ArgInfo where
  name : String
  kind : IOKind
  types : List HalideType
  dimensions : Int
  deriving DecidableEq, Repr

/-- The enumeration `SingleArg::Kind`. -/
inductive SingleArg.Kind where
  | Unknown
  | Constant
  | Expression
  | Function
  | Buffer
  deriving DecidableEq, Repr

/-- The assertion sites of `G2.h` that abort the construction of a detector.
`no_value` and `mismatch` carry the argument name and the field name that the
message prints. -/
inductive Failure where
  /-- Raised by `user_assert(!annotated.name.empty())` in `SingleArg::match`. -/
  | unnamed_argument
  /-- Raised by `user_assert(a_spec || i_spec)` in `get_matching_value`. -/
  | no_value (name field : String)
  /-- Raised by `user_assert(annotated == inferred)` in `get_matching_value`. -/
  | mismatch (name field : String)
  /-- Raised by `internal_assert(!a_spec && !i_spec)` in `require_both_empty`. -/
  | not_both_empty
  /-- Raised by `user_assert(sizeof...(Args) == inputs.size())`. -/
  | arity_mismatch
  /-- Raised by `internal_assert(inferred_arg_types.size() == inputs.size())`. -/
  | inferred_size
  /-- Raised by `internal_error` in the default branch of `to_iokind`. -/
  | unhandled_kind (k : SingleArg.Kind)
  /-- Raised by `user_assert(inferred_ret_type.kind != SingleArg::Kind::Constant)`. -/
  | constant_output
  deriving DecidableEq, Repr

/-- Whether the failure is raised by a `user_assert` (a configuration error)
rather than by `internal_assert` / `internal_error`. -/
def Failure.is_user : Failure → Bool
  | .unnamed_argument => true
  | .no_value _ _ => true
  | .mismatch _ _ => true
  | .not_both_empty => false
  | .arity_mismatch => true
  | .inferred_size => false
  | .unhandled_kind _ => false
  | .constant_output => true

/-- The macro `user_assert(c) << ...`: continue when `c` holds, abort otherwise. -/
def user_assert (c : Bool) (f : Failure) : Except Failure Unit :=
  if c then pure () else throw f

/-- The macro `internal_assert(c) << ...`. -/
def internal_assert (c : Bool) (f : Failure) : Except Failure Unit :=
  if c then pure () else throw f

/-- The struct `SingleArg`, fields in declaration order. -/
structure SingleArg where
  name : String
  kind : SingleArg.Kind
  types : List HalideType
  dimensions : Int
  default_value : String
  deriving DecidableEq, Repr

namespace SingleArg

/-- The field types for which `SingleArg::is_specified` is specialised. -/
class FieldType (α : Type) where
  /-- The template `SingleArg::is_specified<T>`. -/
  is_specified : α → Bool

export FieldType (is_specified)

/-- The specialisation for `std::string`: `!n.empty()`. -/
instance : FieldType String := ⟨fun n => n != ""⟩

/-- The specialisation for `SingleArg::Kind`: `k != Kind::Unknown`. -/
instance : FieldType Kind := ⟨fun k => k != Kind.Unknown⟩

/-- The specialisation for `std::vector<Type>`: `!t.empty()`. -/
instance : FieldType (List HalideType) := ⟨fun t => !t.isEmpty⟩

/-- The specialisation for `int`: `d >= 0`. -/
instance : FieldType Int := ⟨fun d => decide (d ≥ 0)⟩

/-- The template `SingleArg::get_matching_value<T>`. -/
def get_matching_value {α : Type} [FieldType α] [DecidableEq α]
    (annotated inferred : α) (name field : String) : Except Failure α := do
  let a_spec := is_specified annotated
  let i_spec := is_specified inferred
  user_assert (a_spec || i_spec) (Failure.no_value name field)
  if a_spec then
    if i_spec then
      user_assert (decide (annotated = inferred)) (Failure.mismatch name field)
    return annotated
  else
    return inferred

/-- The template `SingleArg::require_both_empty<T>`. -/
def require_both_empty {α : Type} [FieldType α] (annotated inferred : α) : Except Failure α := do
  let a_spec := is_specified annotated
  let i_spec := is_specified inferred
  internal_assert (!a_spec && !i_spec) Failure.not_both_empty
  return annotated

/-- The conditional expression that initialises `default_value` in
`SingleArg::match`: `skip_default_value ? require_both_empty(...) :
get_matching_value(...)`. -/
def match_default (annotated inferred : SingleArg) (skip_default_value : Bool) :
    Except Failure String :=
  if skip_default_value then
    require_both_empty annotated.default_value inferred.default_value
  else
    get_matching_value annotated.default_value inferred.default_value
      annotated.name "default_value"

/-- The static member `SingleArg::match`. -/
def «match» (annotated inferred : SingleArg) (skip_default_value : Bool) :
    Except Failure SingleArg := do
  user_assert (!(annotated.name == "")) Failure.unnamed_argument
  let name ← get_matching_value annotated.name inferred.name annotated.name "name"
  let kind ← get_matching_value annotated.kind inferred.kind annotated.name "kind"
  let types ← get_matching_value annotated.types inferred.types annotated.name "types"
  let dimensions ←
    get_matching_value annotated.dimensions inferred.dimensions annotated.name "dimensions"
  let default_value ← match_default annotated inferred skip_default_value
  return ⟨name, kind, types, dimensions, default_value⟩

end SingleArg

/-- The C++ type of a parameter or of the return value of the callable, after
`std::decay`: the two types for which `SingleArgInferrer` is specialised, or any
other type `T`, represented by `type_of<T>()`. -/
inductive CppType where
  | Func
  | Expr
  | other (t : HalideType)
  deriving DecidableEq, Repr

/-- The template `SingleArgInferrer<T>` with its specialisations for `Func` and
`Expr`. -/
def SingleArgInferrer : CppType → SingleArg
  | CppType.Func => ⟨"", SingleArg.Kind.Function, [], -1, ""⟩
  | CppType.Expr => ⟨"", SingleArg.Kind.Expression, [], 0, ""⟩
  | CppType.other t =>
    if t.is_scalar && (t.is_int || t.is_uint || t.is_float) then
      ⟨"", SingleArg.Kind.Constant, [t], 0, ""⟩
    else
      ⟨"", SingleArg.Kind.Unknown, [], -1, ""⟩

/-- The class `ArgInfoDetector`: its three protected members. -/
structure ArgInfoDetector where
  constants_ : List SingleArg
  inputs_ : List ArgInfo
  outputs_ : List ArgInfo
  deriving DecidableEq, Repr

namespace ArgInfoDetector

/-- The constructor `InputOrConstant(n, k, t, d, s)`; the annotation list of a
detector is a `std::vector<InputOrConstant>`. -/
def InputOrConstant (n : String) (k : SingleArg.Kind) (t : List HalideType) (d : Int)
    (s : String) : SingleArg :=
  ⟨n, k, t, d, s⟩

/-- The constructor `Constant(n, s)`. -/
def Constant (n s : String) : SingleArg :=
  InputOrConstant n SingleArg.Kind.Constant [] 0 s

/-- The constructor `Input(n, t, d)` taking a vector of types. -/
def Input (n : String) (t : List HalideType) (d : Int) : SingleArg :=
  InputOrConstant n SingleArg.Kind.Unknown t d ""

/-- The constructor `Input(n, t)` taking a vector of types. -/
def Input_types (n : String) (t : List HalideType) : SingleArg :=
  Input n t (-1)

/-- The constructor `Input(n, t)` taking one type. -/
def Input_type (n : String) (t : HalideType) : SingleArg :=
  Input n [t] (-1)

/-- The constructor `Input(n, t, d)` taking one type. -/
def Input_type_dims (n : String) (t : HalideType) (d : Int) : SingleArg :=
  Input n [t] d

/-- The constructor `Output(n, t, d)` taking a vector of types. -/
def Output (n : String) (t : List HalideType) (d : Int) : SingleArg :=
  ⟨n, SingleArg.Kind.Unknown, t, d, ""⟩

/-- The constructor `Output(n, t)` taking a vector of types. -/
def Output_types (n : String) (t : List HalideType) : SingleArg :=
  Output n t (-1)

/-- The constructor `Output(n, t)` taking one type. -/
def Output_type (n : String) (t : HalideType) : SingleArg :=
  Output n [t] (-1)

/-- The constructor `Output(n, t, d)` taking one type. -/
def Output_type_dims (n : String) (t : HalideType) (d : Int) : SingleArg :=
  Output n [t] d

/-- The member `to_iokind`: the `default` label comes first and raises
`internal_error`, so `Unknown` and `Constant` abort. -/
def to_iokind : SingleArg.Kind → Except Failure IOKind
  | SingleArg.Kind.Expression => pure IOKind.Scalar
  | SingleArg.Kind.Function => pure IOKind.Function
  | SingleArg.Kind.Buffer => pure IOKind.Buffer
  | k => throw (Failure.unhandled_kind k)

/-- The member `to_arginfo`. -/
def to_arginfo (a : SingleArg) : Except Failure ArgInfo := do
  let kind ← to_iokind a.kind
  return ⟨a.name, kind, a.types, a.dimensions⟩

/-- The body of the `for` loop of the constructor for one position: `input` is
`inputs[i]` and `inferred` is `inferred_arg_types[i]`. -/
def process_arg (d : ArgInfoDetector) (input inferred : SingleArg) :
    Except Failure ArgInfoDetector := do
  let is_constant := inferred.kind == SingleArg.Kind.Constant
  let skip_default_value := !is_constant
  let matched ← SingleArg.«match» input inferred skip_default_value
  if inferred.kind == SingleArg.Kind.Constant then
    let c := Constant matched.name matched.default_value
    return ⟨d.constants_ ++ [⟨c.name, c.kind, matched.types, c.dimensions, c.default_value⟩],
      d.inputs_, d.outputs_⟩
  else
    let info ← to_arginfo matched
    return ⟨d.constants_, d.inputs_ ++ [info], d.outputs_⟩

/-- The `for` loop of the constructor, over the positions that remain; the two
sequences have the same length when the loop is reached. -/
def process_args :
    List SingleArg → List SingleArg → ArgInfoDetector → Except Failure ArgInfoDetector
  | input :: inputs, inferred :: rest, d => do
    let d1 ← process_arg d input inferred
    process_args inputs rest d1
  | _, _, d => pure d

/-- The constructors of `ArgInfoDetector`, which both run the member that fills
the detector from the signature `ret (*)(args...)`, the annotations `inputs`
and the annotation `output`. The merge of the return type calls
`SingleArg::match` with the default third argument, `true`. -/
def construct (args : List CppType) (ret : CppType) (inputs : List SingleArg)
    (output : SingleArg) : Except Failure ArgInfoDetector := do
  user_assert (args.length == inputs.length) Failure.arity_mismatch
  let inferred_arg_types := args.map SingleArgInferrer
  internal_assert (inferred_arg_types.length == inputs.length) Failure.inferred_size
  let d ← process_args inputs inferred_arg_types ⟨[], [], []⟩
  let inferred_ret_type := SingleArgInferrer ret
  user_assert (inferred_ret_type.kind != SingleArg.Kind.Constant) Failure.constant_output
  let matched ← SingleArg.«match» output inferred_ret_type true
  let info ← to_arginfo matched
  return ⟨d.constants_, d.inputs_, d.outputs_ ++ [info]⟩

/-- The accessor `constants()`. -/
def constants (d : ArgInfoDetector) : List SingleArg := d.constants_

/-- The accessor `inputs()`. -/
def inputs (d : ArgInfoDetector) : List ArgInfo := d.inputs_

/-- The accessor `outputs()`. -/
def outputs (d : ArgInfoDetector) : List ArgInfo := d.outputs_

end ArgInfoDetector

/-- The signature and annotations of `g2_test` in `test/generator/g2_generator.cpp`:
`Func g2_test(Func input, Expr offset, int scaling)`, with `type_of<int>()`
taken to be `Int(32)`. -/
def g2_test_detector : Except Failure ArgInfoDetector :=
  ArgInfoDetector.construct
    [CppType.Func, CppType.Expr, CppType.other (Int_ 32)]
    CppType.Func
    [ArgInfoDetector.Input_type_dims "input" (Int_ 32) 2,
     ArgInfoDetector.Input_type "offset" (Int_ 32),
     ArgInfoDetector.Constant "scaling" "2"]
    (ArgInfoDetector.Output_type_dims "output" (Int_ 32) 2)

/-- Modelled from the spec: the class `Pipeline` of `Pipeline.h` (not among the
sources), of which the generator only observes `defined()`. -/
structure Pipeline where
  defined : Bool
  deriving DecidableEq, Repr

/-- Modelled from the spec: the default constructor of `Pipeline`, which yields
an undefined pipeline. -/
def Pipeline.undefined : Pipeline := ⟨false⟩

/-- The container `std::map<std::string, std::string>`: the entries, with
distinct keys kept in increasing order. -/
abbrev StringMap := List (String × String)

namespace StringMap

/-- The assignment `m[k] = v`: overwrite the entry of `k`, or add one at its
place in the order of the keys. -/
def assign : StringMap → String → String → StringMap
  | [], k, v => [(k, v)]
  | (k1, v1) :: rest, k, v =>
    if k < k1 then (k, v) :: (k1, v1) :: rest
    else if k = k1 then (k, v) :: rest
    else (k1, v1) :: assign rest k v

/-- The member `count(k)`, which is 1 when the map has an entry for `k` and 0
otherwise. -/
def count (m : StringMap) (k : String) : Nat :=
  if m.any (fun p => p.1 == k) then 1 else 0

/-- The value stored for `k`, if any (the member `find`). -/
def find : StringMap → String → Option String
  | [], _ => none
  | (k1, v1) :: rest, k => if k = k1 then some v1 else find rest k

/-- The keys in iteration order. -/
def keys (m : StringMap) : List String := m.map Prod.fst

end StringMap

/-- The assertion sites of the class `G2Generator`. -/
inductive GeneratorFailure where
  /-- Raised by `user_assert(!pipeline_.defined())` in the named operation. -/
  | called_after_build (operation : String)
  /-- Raised by `user_assert(generatorparams_.count(name) == 1)`. -/
  | unknown_constant (name : String)
  /-- Raised by `user_assert(false)` in the `LoopLevel` overload. -/
  | no_looplevel_constants
  /-- Raised by `internal_error` in `bind_input`. -/
  | unimplemented
  /-- Raised by `user_assert(pipeline_.defined())` in `build_pipeline`. -/
  | no_pipeline_built
  /-- Raised by `user_assert(pipeline_.defined())` in the named query. -/
  | called_before_build (operation : String)
  deriving DecidableEq, Repr

/-- Whether the failure is raised by a `user_assert`. -/
def GeneratorFailure.is_user : GeneratorFailure → Bool
  | .called_after_build _ => true
  | .unknown_constant _ => true
  | .no_looplevel_constants => true
  | .unimplemented => false
  | .no_pipeline_built => true
  | .called_before_build _ => true

/-- The macro `user_assert(c) << ...` inside `G2Generator`. -/
def generator_user_assert (c : Bool) (f : GeneratorFailure) : Except GeneratorFailure Unit :=
  if c then pure () else throw f

/-- The class `G2Generator`: its data members. The type of `target_info_`
(declared in `AbstractGenerator.h`, not among the sources) is a parameter. -/
structure G2Generator (TargetInfo : Type) where
  target_info_ : TargetInfo
  name_ : String
  inputs_ : List ArgInfo
  outputs_ : List ArgInfo
  generatorparams_ : StringMap
  pipeline_ : Pipeline

namespace G2Generator

variable {TargetInfo : Type}

/-- The static member `init_generatorparams`. -/
def init_generatorparams (constants : List SingleArg) : StringMap :=
  constants.foldl (fun result c => result.assign c.name c.default_value) []

/-- The constructor of `G2Generator`; `target_info` is the value built from the
context. -/
def construct (target_info : TargetInfo) (name : String) (detector : ArgInfoDetector) :
    G2Generator TargetInfo :=
  ⟨target_info, name, detector.inputs, detector.outputs,
    init_generatorparams detector.constants, Pipeline.undefined⟩

/-- The member `get_input_arginfos`. -/
def get_input_arginfos (g : G2Generator TargetInfo) : List ArgInfo := g.inputs_

/-- The member `get_output_arginfos`. -/
def get_output_arginfos (g : G2Generator TargetInfo) : List ArgInfo := g.outputs_

/-- The member `get_generatorparam_names`. -/
def get_generatorparam_names (g : G2Generator TargetInfo) : List String :=
  g.generatorparams_.keys

/-- The member `set_generatorparam_value` taking a string value. -/
def set_generatorparam_value (g : G2Generator TargetInfo) (name value : String) :
    Except GeneratorFailure (G2Generator TargetInfo) := do
  generator_user_assert (!g.pipeline_.defined)
    (GeneratorFailure.called_after_build "set_generatorparam_value")
  generator_user_assert (g.generatorparams_.count name == 1)
    (GeneratorFailure.unknown_constant name)
  return ⟨g.target_info_, g.name_, g.inputs_, g.outputs_,
    g.generatorparams_.assign name value, g.pipeline_⟩

/-- The member `get_name`. -/
def get_name (g : G2Generator TargetInfo) : String := g.name_

/-- The member `get_target_info`. -/
def get_target_info (g : G2Generator TargetInfo) : TargetInfo := g.target_info_

/-- The member `set_generatorparam_value` taking a `LoopLevel`; the value is
not read and no data member is written. -/
def set_generatorparam_value_looplevel (g : G2Generator TargetInfo) (name : String) :
    Except GeneratorFailure Unit := do
  generator_user_assert (!g.pipeline_.defined)
    (GeneratorFailure.called_after_build "set_generatorparam_value")
  generator_user_assert (g.generatorparams_.count name == 1)
    (GeneratorFailure.unknown_constant name)
  generator_user_assert false GeneratorFailure.no_looplevel_constants

/-- The three overloads of the member `bind_input`, whose bodies are the same;
neither argument is read and no data member is written. -/
def bind_input (g : G2Generator TargetInfo) (_name : String) : Except GeneratorFailure Unit := do
  generator_user_assert (!g.pipeline_.defined)
    (GeneratorFailure.called_after_build "bind_input")
  throw GeneratorFailure.unimplemented

/-- The member `build_pipeline`: the statements between its two assertions are
commented out in the source, so no data member is written. -/
def build_pipeline (g : G2Generator TargetInfo) : Except GeneratorFailure Pipeline := do
  generator_user_assert (!g.pipeline_.defined)
    (GeneratorFailure.called_after_build "build_pipeline")
  generator_user_assert g.pipeline_.defined GeneratorFailure.no_pipeline_built
  return g.pipeline_

/-- The member `get_parameters_for_input`, which returns an empty vector; the
element type `Parameter` (not among the sources) is a parameter. -/
def get_parameters_for_input {Parameter : Type} (g : G2Generator TargetInfo)
    (_name : String) : Except GeneratorFailure (List Parameter) := do
  generator_user_assert g.pipeline_.defined
    (GeneratorFailure.called_before_build "get_parameters_for_input")
  return []

/-- The member `get_funcs_for_output`, which returns an empty vector; the
element type `Func` is a parameter. -/
def get_funcs_for_output {Func : Type} (g : G2Generator TargetInfo)
    (_name : String) : Except GeneratorFailure (List Func) := do
  generator_user_assert g.pipeline_.defined
    (GeneratorFailure.called_before_build "get_funcs_for_output")
  return []

/-- The member `get_external_code_map`, which returns an empty map; the type of
its entries (not among the sources) is a parameter. -/
def get_external_code_map {Entry : Type} (g : G2Generator TargetInfo) :
    Except GeneratorFailure (List Entry) := do
  generator_user_assert g.pipeline_.defined
    (GeneratorFailure.called_before_build "get_external_code_map")
  return []

/-- The member `emit_cpp_stub`. -/
def emit_cpp_stub (_g : G2Generator TargetInfo) (_stub_file_path : String) : Bool := false

/-- A call of a public member of `G2Generator`, with the arguments that the
member reads. -/
inductive Call where
  | get_name
  | get_target_info
  | get_input_arginfos
  | get_output_arginfos
  | get_generatorparam_names
  | set_generatorparam_value (name value : String)
  | set_generatorparam_value_looplevel (name : String)
  | bind_input_parameters (name : String)
  | bind_input_funcs (name : String)
  | bind_input_exprs (name : String)
  | build_pipeline
  | get_parameters_for_input (name : String)
  | get_funcs_for_output (name : String)
  | get_external_code_map
  | emit_cpp_stub (stub_file_path : String)
  deriving DecidableEq, Repr

/-- The generator after a call. The only member that writes a data member is
`set_generatorparam_value` with a string value, and it does so after its
assertions; a call that fails, or any other call, leaves the generator as it
was. -/
def after (g : G2Generator TargetInfo) : Call → G2Generator TargetInfo
  | Call.set_generatorparam_value name value =>
    match g.set_generatorparam_value name value with
    | Except.ok g1 => g1
    | Except.error _ => g
  | _ => g

/-- The generator after a sequence of calls, in order. -/
def run (g : G2Generator TargetInfo) (calls : List Call) : G2Generator TargetInfo :=
  calls.foldl after g

end G2Generator

/-! ## Auxiliary facts about the merge of one field -/

section field_lemmas

open SingleArg

variable {α : Type} [FieldType α] [DecidableEq α]

/-- Sequencing after a success runs the continuation. -/
theorem except_bind_ok {ε β γ : Type} (x : β) (f : β → Except ε γ) :
    (Except.ok x : Except ε β).bind f = f x := rfl

/-- Sequencing after a failure keeps the failure. -/
theorem except_bind_error {ε β γ : Type} (e : ε) (f : β → Except ε γ) :
    (Except.error e : Except ε β).bind f = Except.error e := rfl

/-- The result of `get_matching_value`, by cases on which sides are specified. -/
theorem get_matching_value_eq (a i : α) (n f : String) :
    get_matching_value a i n f =
      if is_specified a = true then
        if is_specified i = true then
          if a = i then Except.ok a else Except.error (Failure.mismatch n f)
        else Except.ok a
      else if is_specified i = true then Except.ok i
      else Except.error (Failure.no_value n f) := by
  unfold get_matching_value
  cases ha : is_specified a <;> cases hi : is_specified i <;>
    by_cases hai : a = i <;>
    simp [user_assert, hai, bind, Except.bind, pure, Except.pure, throw, throwThe,
      MonadExceptOf.throw]

/-- A failing `get_matching_value` raises a user error. -/
theorem get_matching_value_error_is_user (a i : α) (n f : String) (e : Failure)
    (h : get_matching_value a i n f = Except.error e) : e.is_user = true := by
  rw [get_matching_value_eq] at h
  split_ifs at h <;> cases h <;> rfl

/-- When `get_matching_value` succeeds, it returns the annotated value if that
one is specified (and then the inferred one is unspecified or equal), and
otherwise the inferred value, which is then specified. -/
theorem get_matching_value_ok (a i v : α) (n f : String)
    (h : get_matching_value a i n f = Except.ok v) :
    (is_specified a = true ∧ v = a ∧ (is_specified i = true → a = i)) ∨
      (¬ is_specified a = true ∧ is_specified i = true ∧ v = i) := by
  rw [get_matching_value_eq] at h
  split_ifs at h with ha hi hai hi <;> cases h
  · exact Or.inl ⟨ha, rfl, fun _ => hai⟩
  · exact Or.inl ⟨ha, rfl, fun h => absurd h hi⟩
  · exact Or.inr ⟨ha, hi, rfl⟩

/-- The result of `require_both_empty`. -/
theorem require_both_empty_eq {β : Type} [FieldType β] (a i : β) :
    require_both_empty a i =
      if is_specified a = false ∧ is_specified i = false then Except.ok a
      else Except.error Failure.not_both_empty := by
  unfold require_both_empty
  cases ha : is_specified a <;> cases hi : is_specified i <;>
    simp [internal_assert, bind, Except.bind, pure, Except.pure, throw, throwThe,
      MonadExceptOf.throw]

/-- A string is specified when it is not empty. -/
theorem is_specified_string (n : String) : is_specified n = true ↔ n ≠ "" := by
  simp [is_specified]

/-- A kind is specified when it is not `Unknown`. -/
theorem is_specified_kind (k : Kind) : is_specified k = true ↔ k ≠ Kind.Unknown := by
  simp [is_specified]

/-- A list of types is specified when it is not empty. -/
theorem is_specified_types (t : List HalideType) : is_specified t = true ↔ t ≠ [] := by
  cases t <;> simp [is_specified]

/-- A number of dimensions is specified when it is not negative. -/
theorem is_specified_dimensions (d : Int) : is_specified d = true ↔ 0 ≤ d := by
  simp [is_specified]

/-- With neither side specified, `get_matching_value` raises `no_value`. -/
theorem get_matching_value_unspecified (a i : α) (n f : String)
    (ha : ¬ is_specified a = true) (hi : ¬ is_specified i = true) :
    get_matching_value a i n f = Except.error (Failure.no_value n f) := by
  rw [get_matching_value_eq, if_neg ha, if_neg hi]

/-- With both sides specified and different, `get_matching_value` raises
`mismatch`. -/
theorem get_matching_value_conflict (a i : α) (n f : String)
    (ha : is_specified a = true) (hi : is_specified i = true) (hne : a ≠ i) :
    get_matching_value a i n f = Except.error (Failure.mismatch n f) := by
  rw [get_matching_value_eq, if_pos ha, if_pos hi, if_neg hne]

end field_lemmas

/-! ## Auxiliary facts about `SingleArg::match` -/

section match_lemmas

open SingleArg

/-- The five merges of `SingleArg::match` in sequence, once the name is known
to be non-empty. -/
theorem match_eq_of_named (a i : SingleArg) (s : Bool) (h : a.name ≠ "") :
    SingleArg.«match» a i s =
      (get_matching_value a.name i.name a.name "name").bind fun name =>
      (get_matching_value a.kind i.kind a.name "kind").bind fun kind =>
      (get_matching_value a.types i.types a.name "types").bind fun types =>
      (get_matching_value a.dimensions i.dimensions a.name "dimensions").bind fun dims =>
      (SingleArg.match_default a i s).bind fun dv =>
      Except.ok ⟨name, kind, types, dims, dv⟩ := by
  unfold SingleArg.«match»
  simp [h, user_assert, bind, pure, Except.pure]
  rfl

/-- An unnamed annotation aborts `SingleArg::match` at its first assertion. -/
theorem match_eq_of_unnamed (a i : SingleArg) (s : Bool) (h : a.name = "") :
    SingleArg.«match» a i s = Except.error Failure.unnamed_argument := by
  unfold SingleArg.«match»
  simp [h, user_assert, bind, Except.bind, throw, throwThe, MonadExceptOf.throw]

/-- A successful `SingleArg::match` means that the name is non-empty and each
of the five merges succeeded with the corresponding field of the result. -/
theorem match_ok_iff (a i r : SingleArg) (s : Bool) :
    SingleArg.«match» a i s = Except.ok r ↔
      a.name ≠ "" ∧
      get_matching_value a.name i.name a.name "name" = Except.ok r.name ∧
      get_matching_value a.kind i.kind a.name "kind" = Except.ok r.kind ∧
      get_matching_value a.types i.types a.name "types" = Except.ok r.types ∧
      get_matching_value a.dimensions i.dimensions a.name "dimensions"
        = Except.ok r.dimensions ∧
      SingleArg.match_default a i s = Except.ok r.default_value := by
  by_cases hn : a.name = ""
  · rw [match_eq_of_unnamed a i s hn]
    constructor
    · intro h; cases h
    · intro h; exact absurd hn h.1
  · rw [match_eq_of_named a i s hn]
    cases r with
    | mk rn rk rt rd rv =>
      cases h1 : get_matching_value a.name i.name a.name "name" <;>
      cases h2 : get_matching_value a.kind i.kind a.name "kind" <;>
      cases h3 : get_matching_value a.types i.types a.name "types" <;>
      cases h4 : get_matching_value a.dimensions i.dimensions a.name "dimensions" <;>
      cases h5 : SingleArg.match_default a i s <;>
      simp [Except.bind, hn]

/-- A failing `SingleArg::match` raises a user error, unless the failure is the
internal assertion of `require_both_empty`, which is reached only when the
default value is skipped and the four other merges have succeeded. -/
theorem match_error_cases (a i : SingleArg) (s : Bool) (e : Failure)
    (h : SingleArg.«match» a i s = Except.error e) :
    e.is_user = true ∨
      (s = true ∧ e = Failure.not_both_empty ∧ a.name ≠ "" ∧
        ∃ n k t d,
          get_matching_value a.name i.name a.name "name" = Except.ok n ∧
          get_matching_value a.kind i.kind a.name "kind" = Except.ok k ∧
          get_matching_value a.types i.types a.name "types" = Except.ok t ∧
          get_matching_value a.dimensions i.dimensions a.name "dimensions" = Except.ok d) := by
  by_cases hn : a.name = ""
  · rw [match_eq_of_unnamed a i s hn] at h
    cases h
    exact Or.inl rfl
  · rw [match_eq_of_named a i s hn] at h
    cases h1 : get_matching_value a.name i.name a.name "name" with
    | error e1 =>
      rw [h1] at h; cases h
      exact Or.inl (get_matching_value_error_is_user _ _ _ _ _ h1)
    | ok n =>
    cases h2 : get_matching_value a.kind i.kind a.name "kind" with
    | error e2 =>
      rw [h1, h2] at h; cases h
      exact Or.inl (get_matching_value_error_is_user _ _ _ _ _ h2)
    | ok k =>
    cases h3 : get_matching_value a.types i.types a.name "types" with
    | error e3 =>
      rw [h1, h2, h3] at h; cases h
      exact Or.inl (get_matching_value_error_is_user _ _ _ _ _ h3)
    | ok t =>
    cases h4 : get_matching_value a.dimensions i.dimensions a.name "dimensions" with
    | error e4 =>
      rw [h1, h2, h3, h4] at h; cases h
      exact Or.inl (get_matching_value_error_is_user _ _ _ _ _ h4)
    | ok d =>
    cases h5 : SingleArg.match_default a i s with
    | ok v => rw [h1, h2, h3, h4, h5] at h; cases h
    | error e5 =>
      rw [h1, h2, h3, h4, h5] at h; cases h
      cases s with
      | false =>
        exact Or.inl (get_matching_value_error_is_user _ _ _ _ _ h5)
      | true =>
        refine Or.inr ⟨rfl, ?_, hn, n, k, t, d, rfl, rfl, rfl, rfl⟩
        simp only [SingleArg.match_default, if_true, require_both_empty_eq] at h5
        split_ifs at h5
        cases h5
        rfl

/-- When the merge of `kind`, of `types` or of `dimensions` fails, so does
`SingleArg::match`, with a user error. -/
theorem match_user_error_of_merge_failure (a i : SingleArg) (s : Bool)
    (h : (∀ k, get_matching_value a.kind i.kind a.name "kind" ≠ Except.ok k) ∨
      (∀ t, get_matching_value a.types i.types a.name "types" ≠ Except.ok t) ∨
      (∀ d, get_matching_value a.dimensions i.dimensions a.name "dimensions"
        ≠ Except.ok d)) :
    ∃ e, SingleArg.«match» a i s = Except.error e ∧ e.is_user = true := by
  cases hm : SingleArg.«match» a i s with
  | ok r =>
    obtain ⟨-, -, h2, h3, h4, -⟩ := (match_ok_iff a i r s).1 hm
    rcases h with h | h | h
    · exact absurd h2 (h _)
    · exact absurd h3 (h _)
    · exact absurd h4 (h _)
  | error e =>
    refine ⟨e, rfl, ?_⟩
    rcases match_error_cases a i s e hm with hu | ⟨-, -, -, n, k, t, d, -, h2, h3, h4⟩
    · exact hu
    · rcases h with h | h | h
      · exact absurd h2 (h _)
      · exact absurd h3 (h _)
      · exact absurd h4 (h _)

end match_lemmas

/-! ## Auxiliary facts about the detector -/

section detector_lemmas

open SingleArg ArgInfoDetector

/-- The value `skip_default_value` that the loop of the constructor passes to
`SingleArg::match` for a given inferred descriptor. -/
theorem process_arg_eq (d : ArgInfoDetector) (a i : SingleArg) :
    process_arg d a i =
      (SingleArg.«match» a i (!(i.kind == Kind.Constant))).bind fun m =>
        if i.kind = Kind.Constant then
          Except.ok ⟨d.constants_ ++ [⟨m.name, Kind.Constant, m.types, 0, m.default_value⟩],
            d.inputs_, d.outputs_⟩
        else
          (to_arginfo m).bind fun info =>
            Except.ok ⟨d.constants_, d.inputs_ ++ [info], d.outputs_⟩ := by
  unfold process_arg
  by_cases hk : i.kind = Kind.Constant <;>
    simp [hk, bind, pure, Except.pure, Constant, InputOrConstant]

/-- One step of the loop of the constructor. -/
theorem process_args_cons (a i : SingleArg) (as is : List SingleArg) (d : ArgInfoDetector) :
    process_args (a :: as) (i :: is) d = (process_arg d a i).bind (process_args as is) := rfl

/-- The result of `to_arginfo`, by cases on the kind. -/
theorem to_arginfo_ok (m : SingleArg) (e : ArgInfo) (h : to_arginfo m = Except.ok e) :
    e.name = m.name ∧ e.types = m.types ∧ e.dimensions = m.dimensions ∧
      to_iokind m.kind = Except.ok e.kind ∧
      m.kind ≠ Kind.Unknown ∧ m.kind ≠ Kind.Constant := by
  unfold to_arginfo at h
  cases hk : m.kind <;>
    simp [hk, to_iokind, bind, Except.bind, pure, Except.pure, throw, throwThe,
      MonadExceptOf.throw] at h <;>
    subst h <;> simp [to_iokind, pure, Except.pure]

/-- The constructor, as a sequence of its checks. -/
theorem construct_eq (args : List CppType) (ret : CppType) (inputs : List SingleArg)
    (output : SingleArg) :
    construct args ret inputs output =
      if args.length = inputs.length then
        (process_args inputs (args.map SingleArgInferrer) ⟨[], [], []⟩).bind fun d =>
          if (SingleArgInferrer ret).kind = Kind.Constant then
            Except.error Failure.constant_output
          else
            (SingleArg.«match» output (SingleArgInferrer ret) true).bind fun m =>
              (to_arginfo m).bind fun info =>
                Except.ok ⟨d.constants_, d.inputs_, d.outputs_ ++ [info]⟩
      else Except.error Failure.arity_mismatch := by
  unfold construct
  by_cases hl : args.length = inputs.length
  · by_cases hk : (SingleArgInferrer ret).kind = Kind.Constant <;>
      simp [hl, hk, user_assert, internal_assert, bind, pure, Except.pure, throw, throwThe,
        MonadExceptOf.throw] <;> rfl
  · simp [hl, user_assert, bind, Except.bind, throw, throwThe, MonadExceptOf.throw]

/-- A successful `SingleArg::match` returns a descriptor in which the name, the
kind, the types and the dimensions are all specified. -/
theorem match_ok_specified (a i r : SingleArg) (s : Bool)
    (h : SingleArg.«match» a i s = Except.ok r) :
    r.name ≠ "" ∧ r.kind ≠ Kind.Unknown ∧ r.types ≠ [] ∧ 0 ≤ r.dimensions := by
  obtain ⟨hn, h1, h2, h3, h4, -⟩ := (match_ok_iff a i r s).1 h
  refine ⟨?_, ?_, ?_, ?_⟩
  · rcases get_matching_value_ok _ _ _ _ _ h1 with ⟨ha, e, -⟩ | ⟨-, hi, e⟩
    · rw [e]; exact hn
    · rw [e]; exact (is_specified_string _).1 hi
  · rcases get_matching_value_ok _ _ _ _ _ h2 with ⟨ha, e, -⟩ | ⟨-, hi, e⟩
    · rw [e]; exact (is_specified_kind _).1 ha
    · rw [e]; exact (is_specified_kind _).1 hi
  · rcases get_matching_value_ok _ _ _ _ _ h3 with ⟨ha, e, -⟩ | ⟨-, hi, e⟩
    · rw [e]; exact (is_specified_types _).1 ha
    · rw [e]; exact (is_specified_types _).1 hi
  · rcases get_matching_value_ok _ _ _ _ _ h4 with ⟨ha, e, -⟩ | ⟨-, hi, e⟩
    · rw [e]; exact (is_specified_dimensions _).1 ha
    · rw [e]; exact (is_specified_dimensions _).1 hi

/-- When a step of the loop succeeds, the merge of that position succeeded,
the outputs are untouched, and an entry that has appeared among the inputs is
the conversion of the merged descriptor. -/
theorem process_arg_ok (d d1 : ArgInfoDetector) (a i : SingleArg)
    (h : process_arg d a i = Except.ok d1) :
    d1.outputs_ = d.outputs_ ∧
      ∃ m, SingleArg.«match» a i (!(i.kind == Kind.Constant)) = Except.ok m ∧
        (d1.inputs_ = d.inputs_ ∨
          ∃ info, to_arginfo m = Except.ok info ∧ d1.inputs_ = d.inputs_ ++ [info]) := by
  rw [process_arg_eq] at h
  cases hm : SingleArg.«match» a i (!(i.kind == Kind.Constant)) with
  | error e => rw [hm] at h; cases h
  | ok m =>
    rw [hm] at h
    simp only [Except.bind] at h
    split_ifs at h with hk
    · cases h
      exact ⟨rfl, m, rfl, Or.inl rfl⟩
    · cases hinfo : to_arginfo m with
      | error e => rw [hinfo] at h; cases h
      | ok info =>
        rw [hinfo] at h
        cases h
        exact ⟨rfl, m, rfl, Or.inr ⟨info, hinfo, rfl⟩⟩

/-- When the loop succeeds, the outputs are untouched and every entry of the
inputs was there before the loop or is the conversion of the merge of an
annotation with an inferred descriptor. -/
theorem process_args_ok (as is : List SingleArg) (d d1 : ArgInfoDetector)
    (h : process_args as is d = Except.ok d1) :
    d1.outputs_ = d.outputs_ ∧
      ∀ x ∈ d1.inputs_, x ∈ d.inputs_ ∨
        ∃ a ∈ as, ∃ i ∈ is, ∃ m,
          SingleArg.«match» a i (!(i.kind == Kind.Constant)) = Except.ok m ∧
            to_arginfo m = Except.ok x := by
  induction as generalizing is d with
  | nil =>
    cases is <;> (simp [process_args, pure, Except.pure] at h; subst h; simp)
  | cons a as ih =>
    cases is with
    | nil => simp [process_args, pure, Except.pure] at h; subst h; simp
    | cons i is =>
      rw [process_args_cons] at h
      cases hd : process_arg d a i with
      | error e => rw [hd] at h; cases h
      | ok d2 =>
        rw [hd] at h
        obtain ⟨ho, m, hm, hin⟩ := process_arg_ok d d2 a i hd
        obtain ⟨ho1, hin1⟩ := ih is d2 h
        refine ⟨ho1.trans ho, fun x hx => ?_⟩
        rcases hin1 x hx with hx2 | ⟨a1, ha1, i1, hi1, m1, hm1, hx1⟩
        · rcases hin with e | ⟨info, hinfo, e⟩
          · exact Or.inl (e ▸ hx2)
          · rw [e, List.mem_append, List.mem_singleton] at hx2
            rcases hx2 with hx2 | hx2
            · exact Or.inl hx2
            · exact Or.inr ⟨a, List.mem_cons_self _ _, i, List.mem_cons_self _ _, m, hm,
                hx2 ▸ hinfo⟩
        · exact Or.inr ⟨a1, List.mem_cons_of_mem _ ha1, i1, List.mem_cons_of_mem _ hi1,
            m1, hm1, hx1⟩

/-- When the step of the loop fails with a user error at position `k`, the loop
fails, and it fails with a user error if the positions before `k` succeed. -/
theorem process_args_fails_at (k : Nat) (as is : List SingleArg) (a i : SingleArg)
    (d : ArgInfoDetector) (ha : as[k]? = some a) (hi : is[k]? = some i)
    (hfail : ∀ d1, ∃ e, process_arg d1 a i = Except.error e ∧ e.is_user = true) :
    (∃ e, process_args as is d = Except.error e) ∧
      ∀ d1, process_args (as.take k) (is.take k) d = Except.ok d1 →
        ∃ e, process_args as is d = Except.error e ∧ e.is_user = true := by
  induction k generalizing as is d with
  | zero =>
    cases as with
    | nil => simp at ha
    | cons x xs =>
      cases is with
      | nil => simp at hi
      | cons y ys =>
        simp only [List.getElem?_cons_zero, Option.some.injEq] at ha hi
        subst ha hi
        obtain ⟨e, he, hu⟩ := hfail d
        rw [process_args_cons, he]
        exact ⟨⟨e, rfl⟩, fun _ _ => ⟨e, rfl, hu⟩⟩
  | succ k ih =>
    cases as with
    | nil => simp at ha
    | cons x xs =>
      cases is with
      | nil => simp at hi
      | cons y ys =>
        simp only [List.getElem?_cons_succ] at ha hi
        simp only [List.take_succ_cons, process_args_cons]
        cases hd : process_arg d x y with
        | error e => exact ⟨⟨e, rfl⟩, fun d1 h => by cases h⟩
        | ok d2 => exact ih xs ys d2 ha hi

end detector_lemmas

/-! ## The merge of one parameter -/

section merge_claims

open SingleArg

/-- C1: when `SingleArg::match` succeeds, the name of the result is the
annotated name and each of `kind`, `types` and `dimensions` is the annotated
value when that one is specified, and otherwise the inferred value, which is
then specified; when both sides are specified the result equals both. -/
theorem C1_match_result_fields (a i r : SingleArg) (s : Bool)
    (h : SingleArg.«match» a i s = Except.ok r) :
    r.name = a.name ∧
    ((a.kind ≠ Kind.Unknown → r.kind = a.kind) ∧
      (a.kind = Kind.Unknown → r.kind = i.kind ∧ i.kind ≠ Kind.Unknown) ∧
      (a.kind ≠ Kind.Unknown → i.kind ≠ Kind.Unknown → r.kind = a.kind ∧ r.kind = i.kind)) ∧
    ((a.types ≠ [] → r.types = a.types) ∧
      (a.types = [] → r.types = i.types ∧ i.types ≠ []) ∧
      (a.types ≠ [] → i.types ≠ [] → r.types = a.types ∧ r.types = i.types)) ∧
    ((0 ≤ a.dimensions → r.dimensions = a.dimensions) ∧
      (a.dimensions < 0 → r.dimensions = i.dimensions ∧ 0 ≤ i.dimensions) ∧
      (0 ≤ a.dimensions → 0 ≤ i.dimensions →
        r.dimensions = a.dimensions ∧ r.dimensions = i.dimensions)) := by
  obtain ⟨hn, h1, h2, h3, h4, -⟩ := (match_ok_iff a i r s).1 h
  have e1 := get_matching_value_ok _ _ _ _ _ h1
  have e2 := get_matching_value_ok _ _ _ _ _ h2
  have e3 := get_matching_value_ok _ _ _ _ _ h3
  have e4 := get_matching_value_ok _ _ _ _ _ h4
  simp only [is_specified_string, is_specified_kind, is_specified_types,
    is_specified_dimensions, ne_eq, not_not] at e1 e2 e3 e4
  refine ⟨?_, ?_, ?_, ?_⟩
  · rcases e1 with ⟨-, e, -⟩ | ⟨e, -, -⟩
    · exact e
    · exact absurd e hn
  · rcases e2 with ⟨ha, e, hi⟩ | ⟨ha, hi, e⟩
    · exact ⟨fun _ => e, fun h0 => absurd h0 ha, fun _ hi0 => ⟨e, e.trans (hi hi0)⟩⟩
    · exact ⟨fun h0 => absurd ha h0, fun _ => ⟨e, hi⟩, fun h0 => absurd ha h0⟩
  · rcases e3 with ⟨ha, e, hi⟩ | ⟨ha, hi, e⟩
    · exact ⟨fun _ => e, fun h0 => absurd h0 ha, fun _ hi0 => ⟨e, e.trans (hi hi0)⟩⟩
    · exact ⟨fun h0 => absurd ha h0, fun _ => ⟨e, hi⟩, fun h0 => absurd ha h0⟩
  · rcases e4 with ⟨ha, e, hi⟩ | ⟨ha, hi, e⟩
    · exact ⟨fun _ => e, fun h0 => absurd ha (not_le.2 h0),
        fun _ hi0 => ⟨e, e.trans (hi hi0)⟩⟩
    · exact ⟨fun h0 => absurd h0 ha, fun _ => ⟨e, hi⟩, fun h0 => absurd h0 ha⟩

/-- The merge of `Input("input", Int(32), 2)` with the descriptor inferred for
a `Func` parameter is an instance of C1. -/
theorem C1_match_result_fields_witness :
    SingleArg.«match» (ArgInfoDetector.Input_type_dims "input" (Int_ 32) 2)
        (SingleArgInferrer CppType.Func) true
      = Except.ok ⟨"input", Kind.Function, [Int_ 32], 2, ""⟩ ∧
    (⟨"input", Kind.Function, [Int_ 32], 2, ""⟩ : SingleArg).name
      = (ArgInfoDetector.Input_type_dims "input" (Int_ 32) 2).name :=
  ⟨by rfl,
    (C1_match_result_fields (ArgInfoDetector.Input_type_dims "input" (Int_ 32) 2)
      (SingleArgInferrer CppType.Func) ⟨"input", Kind.Function, [Int_ 32], 2, ""⟩ true
      (by rfl)).1⟩

/-- C2: an annotated descriptor with an empty name makes `SingleArg::match`
fail with the user error of its first assertion, whatever the inferred
descriptor, the flag and the other fields are. -/
theorem C2_match_unnamed_fails (a i : SingleArg) (s : Bool) (h : a.name = "") :
    SingleArg.«match» a i s = Except.error Failure.unnamed_argument ∧
      Failure.is_user Failure.unnamed_argument = true :=
  ⟨match_eq_of_unnamed a i s h, rfl⟩

/-- An unnamed annotation merged with an inferred descriptor that has a name is
an instance of C2. -/
theorem C2_match_unnamed_fails_witness :
    SingleArg.«match» ⟨"", Kind.Function, [Int_ 32], 2, ""⟩
        ⟨"input", Kind.Function, [Int_ 32], 2, ""⟩ false
      = Except.error Failure.unnamed_argument ∧
      Failure.is_user Failure.unnamed_argument = true :=
  C2_match_unnamed_fails ⟨"", Kind.Function, [Int_ 32], 2, ""⟩
    ⟨"input", Kind.Function, [Int_ 32], 2, ""⟩ false rfl

/-- C3: for an annotated descriptor with a non-empty name, when one of `kind`,
`types`, `dimensions` is specified on neither side, `SingleArg::match` fails
with a user error for either value of the flag; and so it does with
`skip_default_value = false` when both default values are empty. -/
theorem C3_match_unspecified_fails (a i : SingleArg) (_hn : a.name ≠ "") :
    (((a.kind = Kind.Unknown ∧ i.kind = Kind.Unknown) ∨
        (a.types = [] ∧ i.types = []) ∨
        (a.dimensions < 0 ∧ i.dimensions < 0)) →
      ∀ s, ∃ e, SingleArg.«match» a i s = Except.error e ∧ e.is_user = true) ∧
    (a.default_value = "" ∧ i.default_value = "" →
      ∃ e, SingleArg.«match» a i false = Except.error e ∧ e.is_user = true) := by
  constructor
  · intro h s
    apply match_user_error_of_merge_failure
    rcases h with ⟨ha, hi⟩ | ⟨ha, hi⟩ | ⟨ha, hi⟩
    · refine Or.inl fun k => ?_
      rw [get_matching_value_unspecified _ _ _ _
        (by simp [is_specified_kind, ha]) (by simp [is_specified_kind, hi])]
      exact fun h0 => by cases h0
    · refine Or.inr (Or.inl fun t => ?_)
      rw [get_matching_value_unspecified _ _ _ _
        (by simp [is_specified_types, ha]) (by simp [is_specified_types, hi])]
      exact fun h0 => by cases h0
    · refine Or.inr (Or.inr fun d => ?_)
      rw [get_matching_value_unspecified _ _ _ _
        (by simpa [is_specified_dimensions] using ha)
        (by simpa [is_specified_dimensions] using hi)]
      exact fun h0 => by cases h0
  · rintro ⟨ha, hi⟩
    have h5 : SingleArg.match_default a i false
        = Except.error (Failure.no_value a.name "default_value") := by
      simp only [SingleArg.match_default, Bool.false_eq_true, if_false]
      exact get_matching_value_unspecified _ _ _ _
        (by simp [is_specified_string, ha]) (by simp [is_specified_string, hi])
    cases hm : SingleArg.«match» a i false with
    | ok r =>
      have h6 := ((match_ok_iff a i r false).1 hm).2.2.2.2.2
      rw [h5] at h6
      cases h6
    | error e =>
      refine ⟨e, rfl, ?_⟩
      rcases match_error_cases a i false e hm with hu | ⟨hs, -⟩
      · exact hu
      · cases hs

/-- A named `Input` annotation without types merged with the descriptor
inferred for a `Func` parameter, and a `Constant` annotation with an empty
default merged with the descriptor inferred for an `int` parameter, are
instances of C3. -/
theorem C3_match_unspecified_fails_witness :
    (∀ s, ∃ e, SingleArg.«match» (ArgInfoDetector.Input_types "input" [])
        (SingleArgInferrer CppType.Func) s = Except.error e ∧ e.is_user = true) ∧
    (∃ e, SingleArg.«match» (ArgInfoDetector.Constant "scaling" "")
        (SingleArgInferrer (CppType.other (Int_ 32))) false = Except.error e ∧
      e.is_user = true) :=
  ⟨(C3_match_unspecified_fails (ArgInfoDetector.Input_types "input" [])
      (SingleArgInferrer CppType.Func) (by decide)).1 (Or.inr (Or.inl ⟨rfl, rfl⟩)),
    (C3_match_unspecified_fails (ArgInfoDetector.Constant "scaling" "")
      (SingleArgInferrer (CppType.other (Int_ 32))) (by decide)).2 ⟨rfl, rfl⟩⟩

/-- C5: when the name, kind, types and dimensions all resolve, `SingleArg::match`
with `skip_default_value = true` fails with the internal assertion of
`require_both_empty` (not a user error) as soon as one of the two default
values is non-empty, and succeeds with an empty default value when both are
empty. -/
theorem C5_match_skip_default (a i : SingleArg) (n : String) (k : Kind)
    (t : List HalideType) (d : Int) (hn : a.name ≠ "")
    (h1 : get_matching_value a.name i.name a.name "name" = Except.ok n)
    (h2 : get_matching_value a.kind i.kind a.name "kind" = Except.ok k)
    (h3 : get_matching_value a.types i.types a.name "types" = Except.ok t)
    (h4 : get_matching_value a.dimensions i.dimensions a.name "dimensions" = Except.ok d) :
    ((a.default_value ≠ "" ∨ i.default_value ≠ "") →
      SingleArg.«match» a i true = Except.error Failure.not_both_empty ∧
        Failure.is_user Failure.not_both_empty = false) ∧
    (a.default_value = "" → i.default_value = "" →
      SingleArg.«match» a i true = Except.ok ⟨n, k, t, d, ""⟩) := by
  rw [match_eq_of_named a i true hn, h1, h2, h3, h4]
  simp only [SingleArg.match_default, if_true, require_both_empty_eq, Except.bind]
  constructor
  · intro h
    have hne : ¬ (is_specified a.default_value = false ∧ is_specified i.default_value = false) := by
      simp only [Bool.eq_false_iff, is_specified_string, ne_eq, not_not]
      rintro ⟨ha, hi⟩
      rcases h with h | h
      · exact h ha
      · exact h hi
    rw [if_neg hne]
    exact ⟨rfl, rfl⟩
  · intro ha hi
    have hboth : is_specified a.default_value = false ∧ is_specified i.default_value = false := by
      simp only [Bool.eq_false_iff, is_specified_string, ne_eq, not_not]
      exact ⟨ha, hi⟩
    rw [if_pos hboth, ha]

/-- An `Input` annotation for an `Expr` parameter, once with a default value
added and once as built, is an instance of C5. -/
theorem C5_match_skip_default_witness :
    (SingleArg.«match»
        (ArgInfoDetector.InputOrConstant "offset" Kind.Unknown [Int_ 32] (-1) "7")
        (SingleArgInferrer CppType.Expr) true = Except.error Failure.not_both_empty ∧
      Failure.is_user Failure.not_both_empty = false) ∧
    SingleArg.«match» (ArgInfoDetector.Input_type "offset" (Int_ 32))
        (SingleArgInferrer CppType.Expr) true
      = Except.ok ⟨"offset", Kind.Expression, [Int_ 32], 0, ""⟩ :=
  ⟨(C5_match_skip_default
      (ArgInfoDetector.InputOrConstant "offset" Kind.Unknown [Int_ 32] (-1) "7")
      (SingleArgInferrer CppType.Expr) "offset" Kind.Expression [Int_ 32] 0
      (by decide) (by rfl) (by rfl) (by rfl) (by rfl)).1 (Or.inl (by decide)),
    (C5_match_skip_default (ArgInfoDetector.Input_type "offset" (Int_ 32))
      (SingleArgInferrer CppType.Expr) "offset" Kind.Expression [Int_ 32] 0
      (by decide) (by rfl) (by rfl) (by rfl) (by rfl)).2 rfl rfl⟩

/-- C6: `get_matching_value` is symmetric in its two value arguments, for every
field type: both calls fail or both succeed with the same value; when only one
side is specified the result is that side whichever position it is in, and when
both are specified and equal the result is the common value. -/
theorem C6_get_matching_value_symmetric {α : Type} [FieldType α] [DecidableEq α]
    (a i : α) (n f : String) :
    (((∃ e, get_matching_value a i n f = Except.error e) ∧
        (∃ e, get_matching_value i a n f = Except.error e)) ∨
      (∃ v, get_matching_value a i n f = Except.ok v ∧
        get_matching_value i a n f = Except.ok v)) ∧
    (is_specified a = true → is_specified i = false →
      get_matching_value a i n f = Except.ok a ∧ get_matching_value i a n f = Except.ok a) ∧
    (is_specified a = true → is_specified i = true → a = i →
      get_matching_value a i n f = Except.ok a ∧ get_matching_value i a n f = Except.ok a) := by
  simp only [get_matching_value_eq]
  by_cases hai : a = i
  · subst hai
    cases ha : is_specified a <;> simp
  · have hia : ¬ i = a := fun h => hai h.symm
    cases ha : is_specified a <;> cases hi : is_specified i <;> simp [hai, hia]

/-- The four field types of `SingleArg` with one side specified, or both sides
specified and equal, are instances of C6. -/
theorem C6_get_matching_value_symmetric_witness :
    (get_matching_value (2 : Int) (-1) "input" "dimensions" = Except.ok 2 ∧
      get_matching_value (-1 : Int) 2 "input" "dimensions" = Except.ok 2) ∧
    (get_matching_value Kind.Function Kind.Function "input" "kind" = Except.ok Kind.Function ∧
      get_matching_value Kind.Function Kind.Function "input" "kind"
        = Except.ok Kind.Function) ∧
    (get_matching_value [Int_ 32] [] "input" "types" = Except.ok [Int_ 32] ∧
      get_matching_value [] [Int_ 32] "input" "types" = Except.ok [Int_ 32]) ∧
    (get_matching_value "2" "" "scaling" "default_value" = Except.ok "2" ∧
      get_matching_value "" "2" "scaling" "default_value" = Except.ok "2") :=
  ⟨(C6_get_matching_value_symmetric (2 : Int) (-1) "input" "dimensions").2.1 rfl rfl,
    (C6_get_matching_value_symmetric Kind.Function Kind.Function "input" "kind").2.2
      rfl rfl rfl,
    (C6_get_matching_value_symmetric [Int_ 32] [] "input" "types").2.1 rfl rfl,
    (C6_get_matching_value_symmetric "2" "" "scaling" "default_value").2.1 rfl rfl⟩

end merge_claims

/-! ## The construction of a detector -/

section detector_claims

open SingleArg ArgInfoDetector

/-- C4: for an annotated descriptor with a non-empty name, when one of `kind`,
`types`, `dimensions` is specified on both sides with different values,
`SingleArg::match` fails with a user error; hence the step of the constructor
for that parameter fails with a user error, and the construction of a detector
that has this annotation and this inferred descriptor at some position fails,
with a user error when the positions before it are processed successfully. -/
theorem C4_match_conflict_fails (a i : SingleArg) (_hn : a.name ≠ "")
    (h : (a.kind ≠ Kind.Unknown ∧ i.kind ≠ Kind.Unknown ∧ a.kind ≠ i.kind) ∨
      (a.types ≠ [] ∧ i.types ≠ [] ∧ a.types ≠ i.types) ∨
      (0 ≤ a.dimensions ∧ 0 ≤ i.dimensions ∧ a.dimensions ≠ i.dimensions)) :
    (∀ s, ∃ e, SingleArg.«match» a i s = Except.error e ∧ e.is_user = true) ∧
    (∀ d, ∃ e, process_arg d a i = Except.error e ∧ e.is_user = true) ∧
    (∀ (args : List CppType) (ret : CppType) (inputs : List SingleArg) (output : SingleArg)
        (k : Nat),
      inputs[k]? = some a → (args.map SingleArgInferrer)[k]? = some i →
        (∃ e, construct args ret inputs output = Except.error e) ∧
        (∀ d, process_args (inputs.take k) ((args.map SingleArgInferrer).take k) ⟨[], [], []⟩
            = Except.ok d →
          ∃ e, construct args ret inputs output = Except.error e ∧ e.is_user = true)) := by
  have hmatch : ∀ s, ∃ e, SingleArg.«match» a i s = Except.error e ∧ e.is_user = true := by
    intro s
    apply match_user_error_of_merge_failure
    rcases h with ⟨ha, hi, hne⟩ | ⟨ha, hi, hne⟩ | ⟨ha, hi, hne⟩
    · refine Or.inl fun k => ?_
      rw [get_matching_value_conflict _ _ _ _
        ((is_specified_kind _).2 ha) ((is_specified_kind _).2 hi) hne]
      exact fun h0 => by cases h0
    · refine Or.inr (Or.inl fun t => ?_)
      rw [get_matching_value_conflict _ _ _ _
        ((is_specified_types _).2 ha) ((is_specified_types _).2 hi) hne]
      exact fun h0 => by cases h0
    · refine Or.inr (Or.inr fun d => ?_)
      rw [get_matching_value_conflict _ _ _ _
        ((is_specified_dimensions _).2 ha) ((is_specified_dimensions _).2 hi) hne]
      exact fun h0 => by cases h0
  have hstep : ∀ d1, ∃ e, process_arg d1 a i = Except.error e ∧ e.is_user = true := by
    intro d1
    obtain ⟨e, he, hu⟩ := hmatch (!(i.kind == Kind.Constant))
    exact ⟨e, by rw [process_arg_eq, he]; rfl, hu⟩
  refine ⟨hmatch, hstep, fun args ret inputs output k ha hi => ?_⟩
  obtain ⟨⟨e, he⟩, hloop⟩ :=
    process_args_fails_at k inputs (args.map SingleArgInferrer) a i ⟨[], [], []⟩ ha hi hstep
  rw [construct_eq]
  by_cases hl : args.length = inputs.length
  · rw [if_pos hl]
    refine ⟨⟨e, by rw [he]; rfl⟩, fun d hd => ?_⟩
    obtain ⟨e1, he1, hu1⟩ := hloop d hd
    exact ⟨e1, by rw [he1]; rfl, hu1⟩
  · rw [if_neg hl]
    exact ⟨⟨_, rfl⟩, fun _ _ => ⟨_, rfl, rfl⟩⟩

/-- Annotated dimensions 2 against inferred dimensions 3, and the annotation
`Input("offset", Int(32), 2)` on the `Expr` parameter of a callable
`Func (Func, Expr)`, are instances of C4. -/
theorem C4_match_conflict_fails_witness :
    (∀ s, ∃ e, SingleArg.«match» ⟨"input", Kind.Function, [Int_ 32], 2, ""⟩
        ⟨"", Kind.Function, [], 3, ""⟩ s = Except.error e ∧ e.is_user = true) ∧
    (∃ e, construct [CppType.Func, CppType.Expr] CppType.Func
        [Input_type_dims "input" (Int_ 32) 2, Input_type_dims "offset" (Int_ 32) 2]
        (Output_type_dims "output" (Int_ 32) 2) = Except.error e ∧ e.is_user = true) :=
  ⟨(C4_match_conflict_fails ⟨"input", Kind.Function, [Int_ 32], 2, ""⟩
      ⟨"", Kind.Function, [], 3, ""⟩ (by decide)
      (Or.inr (Or.inr ⟨by decide, by decide, by decide⟩))).1,
    ((C4_match_conflict_fails (Input_type_dims "offset" (Int_ 32) 2)
      (SingleArgInferrer CppType.Expr) (by decide)
      (Or.inr (Or.inr ⟨by decide, by decide, by decide⟩))).2.2
        [CppType.Func, CppType.Expr] CppType.Func
        [Input_type_dims "input" (Int_ 32) 2, Input_type_dims "offset" (Int_ 32) 2]
        (Output_type_dims "output" (Int_ 32) 2) 1 rfl rfl).2
      ⟨[], [⟨"input", IOKind.Function, [Int_ 32], 2⟩], []⟩ (by rfl)⟩

/-- C7: when the construction of a detector succeeds, every entry of `inputs()`
and of `outputs()` has a non-empty name, a non-empty list of types and
non-negative dimensions, and its `IOKind` is the conversion of the kind of a
merged descriptor, which is neither `Unknown` nor `Constant`. -/
theorem C7_entries_fully_specified (args : List CppType) (ret : CppType)
    (inputs : List SingleArg) (output : SingleArg) (d : ArgInfoDetector)
    (h : construct args ret inputs output = Except.ok d) :
    (∀ x ∈ d.inputs, x.name ≠ "" ∧ x.types ≠ [] ∧ 0 ≤ x.dimensions ∧
      ∃ a ∈ inputs, ∃ T ∈ args, ∃ m,
        SingleArg.«match» a (SingleArgInferrer T)
            (!((SingleArgInferrer T).kind == Kind.Constant)) = Except.ok m ∧
          m.kind ≠ Kind.Unknown ∧ m.kind ≠ Kind.Constant ∧
          to_iokind m.kind = Except.ok x.kind) ∧
    (∀ x ∈ d.outputs, x.name ≠ "" ∧ x.types ≠ [] ∧ 0 ≤ x.dimensions ∧
      ∃ m, SingleArg.«match» output (SingleArgInferrer ret) true = Except.ok m ∧
        m.kind ≠ Kind.Unknown ∧ m.kind ≠ Kind.Constant ∧
        to_iokind m.kind = Except.ok x.kind) := by
  rw [construct_eq] at h
  by_cases hl : args.length = inputs.length
  swap
  · rw [if_neg hl] at h; cases h
  rw [if_pos hl] at h
  cases hp : process_args inputs (args.map SingleArgInferrer) ⟨[], [], []⟩ with
  | error e => rw [hp] at h; cases h
  | ok d0 =>
    rw [hp, except_bind_ok] at h
    by_cases hk : (SingleArgInferrer ret).kind = Kind.Constant
    · rw [if_pos hk] at h; cases h
    rw [if_neg hk] at h
    cases hm : SingleArg.«match» output (SingleArgInferrer ret) true with
    | error e => rw [hm] at h; cases h
    | ok m =>
      rw [hm, except_bind_ok] at h
      cases hinfo : to_arginfo m with
      | error e => rw [hinfo] at h; cases h
      | ok info =>
        rw [hinfo, except_bind_ok] at h
        cases h
        obtain ⟨ho, hin⟩ := process_args_ok _ _ _ _ hp
        constructor
        · intro x hx
          rcases hin x hx with hx0 | ⟨a, ha, i, hi, m1, hm1, hx1⟩
          · cases hx0
          · obtain ⟨T, hT, rfl⟩ := List.mem_map.1 hi
            obtain ⟨e1, e2, e3, e4, e5, e6⟩ := to_arginfo_ok m1 x hx1
            obtain ⟨s1, -, s3, s4⟩ := match_ok_specified _ _ _ _ hm1
            exact ⟨e1 ▸ s1, e2 ▸ s3, e3 ▸ s4, a, ha, T, hT, m1, hm1, e5, e6, e4⟩
        · intro x hx
          have hx1 : x = info := by
            have : x ∈ d0.outputs_ ++ [info] := hx
            rw [ho] at this
            simpa using this
          subst hx1
          obtain ⟨e1, e2, e3, e4, e5, e6⟩ := to_arginfo_ok m x hinfo
          obtain ⟨s1, -, s3, s4⟩ := match_ok_specified _ _ _ _ hm
          exact ⟨e1 ▸ s1, e2 ▸ s3, e3 ▸ s4, m, rfl, e5, e6, e4⟩

/-- The detector of `g2_test` is an instance of C7. -/
theorem C7_entries_fully_specified_witness :
    g2_test_detector = Except.ok
        ⟨[⟨"scaling", Kind.Constant, [Int_ 32], 0, "2"⟩],
          [⟨"input", IOKind.Function, [Int_ 32], 2⟩, ⟨"offset", IOKind.Scalar, [Int_ 32], 0⟩],
          [⟨"output", IOKind.Function, [Int_ 32], 2⟩]⟩ ∧
    (∀ x ∈ [(⟨"input", IOKind.Function, [Int_ 32], 2⟩ : ArgInfo),
        ⟨"offset", IOKind.Scalar, [Int_ 32], 0⟩],
      x.name ≠ "" ∧ x.types ≠ [] ∧ 0 ≤ x.dimensions) ∧
    (∀ x ∈ [(⟨"output", IOKind.Function, [Int_ 32], 2⟩ : ArgInfo)],
      x.name ≠ "" ∧ x.types ≠ [] ∧ 0 ≤ x.dimensions) :=
  ⟨by rfl,
    fun x hx =>
      have h := (C7_entries_fully_specified
        [CppType.Func, CppType.Expr, CppType.other (Int_ 32)] CppType.Func
        [Input_type_dims "input" (Int_ 32) 2, Input_type "offset" (Int_ 32),
          Constant "scaling" "2"]
        (Output_type_dims "output" (Int_ 32) 2)
        ⟨[⟨"scaling", Kind.Constant, [Int_ 32], 0, "2"⟩],
          [⟨"input", IOKind.Function, [Int_ 32], 2⟩, ⟨"offset", IOKind.Scalar, [Int_ 32], 0⟩],
          [⟨"output", IOKind.Function, [Int_ 32], 2⟩]⟩ (by rfl)).1 x hx
      ⟨h.1, h.2.1, h.2.2.1⟩,
    fun x hx =>
      have h := (C7_entries_fully_specified
        [CppType.Func, CppType.Expr, CppType.other (Int_ 32)] CppType.Func
        [Input_type_dims "input" (Int_ 32) 2, Input_type "offset" (Int_ 32),
          Constant "scaling" "2"]
        (Output_type_dims "output" (Int_ 32) 2)
        ⟨[⟨"scaling", Kind.Constant, [Int_ 32], 0, "2"⟩],
          [⟨"input", IOKind.Function, [Int_ 32], 2⟩, ⟨"offset", IOKind.Scalar, [Int_ 32], 0⟩],
          [⟨"output", IOKind.Function, [Int_ 32], 2⟩]⟩ (by rfl)).2 x hx
      ⟨h.1, h.2.1, h.2.2.1⟩⟩

/-- C8, as stated, fails: the detector of `g2_test` does not have an `offset`
entry whose list of element types is empty. -/
theorem C8_g2_test_offset_types_counterexample :
    ¬ ∃ d, g2_test_detector = Except.ok d ∧
      d.constants.map (fun c => (c.name, c.default_value)) = [("scaling", "2")] ∧
      d.inputs = [⟨"input", IOKind.Function, [Int_ 32], 2⟩,
        ⟨"offset", IOKind.Scalar, [], 0⟩] ∧
      d.outputs = [⟨"output", IOKind.Function, [Int_ 32], 2⟩] := by
  rintro ⟨d, hd, -, hin, -⟩
  have hg : g2_test_detector = Except.ok
      ⟨[⟨"scaling", Kind.Constant, [Int_ 32], 0, "2"⟩],
        [⟨"input", IOKind.Function, [Int_ 32], 2⟩, ⟨"offset", IOKind.Scalar, [Int_ 32], 0⟩],
        [⟨"output", IOKind.Function, [Int_ 32], 2⟩]⟩ := by rfl
  rw [hg] at hd
  cases hd
  simp [ArgInfoDetector.inputs] at hin

/-- C8, amended: the construction of the detector of `g2_test` succeeds with the
constant `scaling` (default `"2"`, type `int32`), the inputs `input`
(`Function`, `[int32]`, 2) and `offset` (`Scalar`, `[int32]`, 0), and the
output `output` (`Function`, `[int32]`, 2). -/
theorem C8_g2_test_detector :
    g2_test_detector = Except.ok
      ⟨[⟨"scaling", Kind.Constant, [Int_ 32], 0, "2"⟩],
        [⟨"input", IOKind.Function, [Int_ 32], 2⟩, ⟨"offset", IOKind.Scalar, [Int_ 32], 0⟩],
        [⟨"output", IOKind.Function, [Int_ 32], 2⟩]⟩ := by
  rfl

/-- C9: when the number of annotations differs from the arity of the callable,
the construction fails with the arity user error, whatever the annotations
hold; no merge decides the outcome and no detector is produced. -/
theorem C9_arity_mismatch_fails (args : List CppType) (ret : CppType)
    (inputs : List SingleArg) (output : SingleArg) (h : inputs.length ≠ args.length) :
    construct args ret inputs output = Except.error Failure.arity_mismatch ∧
      Failure.is_user Failure.arity_mismatch = true := by
  rw [construct_eq, if_neg (fun hl => h hl.symm)]
  exact ⟨rfl, rfl⟩

/-- Two annotations, one of them unnamed, for the three parameters of `g2_test`
are an instance of C9. -/
theorem C9_arity_mismatch_fails_witness :
    construct [CppType.Func, CppType.Expr, CppType.other (Int_ 32)] CppType.Func
        [Input_type_dims "" (Int_ 32) 2, Input_type "offset" (Int_ 32)]
        (Output_type_dims "output" (Int_ 32) 2)
      = Except.error Failure.arity_mismatch ∧
      Failure.is_user Failure.arity_mismatch = true :=
  C9_arity_mismatch_fails [CppType.Func, CppType.Expr, CppType.other (Int_ 32)] CppType.Func
    [Input_type_dims "" (Int_ 32) 2, Input_type "offset" (Int_ 32)]
    (Output_type_dims "output" (Int_ 32) 2) (by decide)

/-- C10, as stated, fails: for a callable `int (void *)` whose parameter is
annotated with kind `Constant`, the only parameter merge succeeds and yet the
construction fails with the internal error of `to_iokind`, not with the user
error about constant outputs. -/
theorem C10_constant_return_counterexample :
    (SingleArgInferrer (CppType.other (Int_ 32))).kind = Kind.Constant ∧
    SingleArg.«match» (InputOrConstant "p" Kind.Constant [Int_ 32] 0 "")
        (SingleArgInferrer (CppType.other ⟨TypeCode.Handle, 64, 1⟩)) true
      = Except.ok ⟨"p", Kind.Constant, [Int_ 32], 0, ""⟩ ∧
    construct [CppType.other ⟨TypeCode.Handle, 64, 1⟩] (CppType.other (Int_ 32))
        [InputOrConstant "p" Kind.Constant [Int_ 32] 0 ""]
        (Output_type_dims "output" (Int_ 32) 2)
      = Except.error (Failure.unhandled_kind Kind.Constant) ∧
    Failure.unhandled_kind Kind.Constant ≠ Failure.constant_output ∧
    Failure.is_user (Failure.unhandled_kind Kind.Constant) = false :=
  ⟨by rfl, by rfl, by rfl, by decide, by rfl⟩

/-- C10, amended: for a callable whose return type is inferred as `Constant`,
the construction fails whatever the annotations are; when the arities agree and
the loop over the parameters completes, the failure is the user error stating
that outputs must not be a constant. -/
theorem C10_constant_return_fails (args : List CppType) (ret : CppType)
    (inputs : List SingleArg) (output : SingleArg)
    (h : (SingleArgInferrer ret).kind = Kind.Constant) :
    (∃ e, construct args ret inputs output = Except.error e) ∧
    (args.length = inputs.length →
      ∀ d, process_args inputs (args.map SingleArgInferrer) ⟨[], [], []⟩ = Except.ok d →
        construct args ret inputs output = Except.error Failure.constant_output ∧
          Failure.is_user Failure.constant_output = true) := by
  rw [construct_eq]
  constructor
  · by_cases hl : args.length = inputs.length
    · rw [if_pos hl]
      cases hp : process_args inputs (args.map SingleArgInferrer) ⟨[], [], []⟩ with
      | error e => exact ⟨e, rfl⟩
      | ok d => exact ⟨Failure.constant_output, by rw [except_bind_ok, if_pos h]⟩
    · rw [if_neg hl]
      exact ⟨_, rfl⟩
  · intro hl d hp
    rw [if_pos hl, hp, except_bind_ok, if_pos h]
    exact ⟨rfl, rfl⟩

/-- A callable `int (Func)` with a well-formed `Input` annotation is an instance
of the amended C10. -/
theorem C10_constant_return_fails_witness :
    construct [CppType.Func] (CppType.other (Int_ 32))
        [Input_type_dims "input" (Int_ 32) 2] (Output_type_dims "output" (Int_ 32) 0)
      = Except.error Failure.constant_output ∧
      Failure.is_user Failure.constant_output = true :=
  (C10_constant_return_fails [CppType.Func] (CppType.other (Int_ 32))
    [Input_type_dims "input" (Int_ 32) 2] (Output_type_dims "output" (Int_ 32) 0)
    (by rfl)).2 rfl ⟨[], [⟨"input", IOKind.Function, [Int_ 32], 2⟩], []⟩ (by rfl)

end detector_claims

/-! ## Further facts about the merge -/

section merge_lemmas

open SingleArg

/-- The merge of one field succeeds exactly when a side is specified and the
two sides agree where both are specified. -/
theorem get_matching_value_succeeds_iff {α : Type} [FieldType α] [DecidableEq α]
    (a i : α) (n f : String) :
    (∃ v, get_matching_value a i n f = Except.ok v) ↔
      (is_specified a = true ∨ is_specified i = true) ∧
        (is_specified a = true → is_specified i = true → a = i) := by
  rw [get_matching_value_eq]
  by_cases hai : a = i
  · subst hai
    cases ha : is_specified a <;> simp
  · cases ha : is_specified a <;> cases hi : is_specified i <;> simp [hai]

/-- Merging the result of a successful merge with the same inferred value
returns it again. -/
theorem get_matching_value_idem {α : Type} [FieldType α] [DecidableEq α]
    (a i v : α) (n f n1 f1 : String) (h : get_matching_value a i n f = Except.ok v) :
    get_matching_value v i n1 f1 = Except.ok v := by
  rcases get_matching_value_ok a i v n f h with ⟨ha, e, hi⟩ | ⟨ha, hi, e⟩
  · subst e
    rw [get_matching_value_eq, if_pos ha]
    by_cases hs : is_specified i = true
    · rw [if_pos hs, if_pos (hi hs)]
    · rw [if_neg hs]
  · subst e
    rw [get_matching_value_eq, if_pos hi, if_pos hi, if_pos rfl]

/-- `SingleArg::match` succeeds exactly when the name is non-empty and each of
its five merges succeeds. -/
theorem match_succeeds_iff (a i : SingleArg) (s : Bool) :
    (∃ r, SingleArg.«match» a i s = Except.ok r) ↔
      a.name ≠ "" ∧
      (∃ n, get_matching_value a.name i.name a.name "name" = Except.ok n) ∧
      (∃ k, get_matching_value a.kind i.kind a.name "kind" = Except.ok k) ∧
      (∃ t, get_matching_value a.types i.types a.name "types" = Except.ok t) ∧
      (∃ d, get_matching_value a.dimensions i.dimensions a.name "dimensions"
        = Except.ok d) ∧
      (∃ v, SingleArg.match_default a i s = Except.ok v) := by
  constructor
  · rintro ⟨r, h⟩
    obtain ⟨hn, h1, h2, h3, h4, h5⟩ := (match_ok_iff a i r s).1 h
    exact ⟨hn, ⟨_, h1⟩, ⟨_, h2⟩, ⟨_, h3⟩, ⟨_, h4⟩, ⟨_, h5⟩⟩
  · rintro ⟨hn, ⟨n, h1⟩, ⟨k, h2⟩, ⟨t, h3⟩, ⟨d, h4⟩, ⟨v, h5⟩⟩
    exact ⟨⟨n, k, t, d, v⟩, (match_ok_iff a i _ s).2 ⟨hn, h1, h2, h3, h4, h5⟩⟩

/-- The merge of the default value, when skipped, succeeds exactly when both
defaults are empty; it then returns the empty string. -/
theorem match_default_skip (a i : SingleArg) (v : String) :
    SingleArg.match_default a i true = Except.ok v ↔
      a.default_value = "" ∧ i.default_value = "" ∧ v = "" := by
  have hs : ∀ n : String, is_specified n = false ↔ n = "" := fun n => by
    rw [← Bool.not_eq_true, is_specified_string, not_not]
  simp only [SingleArg.match_default, if_true, require_both_empty_eq, hs]
  by_cases h : a.default_value = "" ∧ i.default_value = ""
  · rw [if_pos h]
    constructor
    · intro hv
      cases hv
      exact ⟨h.1, h.2, h.1⟩
    · rintro ⟨ha, -, hv⟩
      rw [ha, hv]
  · rw [if_neg h]
    constructor
    · intro hv
      cases hv
    · rintro ⟨ha, hi, -⟩
      exact absurd ⟨ha, hi⟩ h

end merge_lemmas

/-! ## Further facts about the loop of the constructor -/

section loop_lemmas

open SingleArg ArgInfoDetector

/-- A successful step of the loop, by cases on the inferred kind: the merged
descriptor is rebuilt into the constants, or converted into the inputs. -/
theorem process_arg_ok_cases (d d1 : ArgInfoDetector) (a i : SingleArg)
    (h : process_arg d a i = Except.ok d1) :
    ∃ m, SingleArg.«match» a i (!(i.kind == Kind.Constant)) = Except.ok m ∧
      ((i.kind = Kind.Constant ∧
          d1 = ⟨d.constants_ ++ [⟨m.name, Kind.Constant, m.types, 0, m.default_value⟩],
            d.inputs_, d.outputs_⟩) ∨
        (i.kind ≠ Kind.Constant ∧
          ∃ info, to_arginfo m = Except.ok info ∧
            d1 = ⟨d.constants_, d.inputs_ ++ [info], d.outputs_⟩)) := by
  rw [process_arg_eq] at h
  cases hm : SingleArg.«match» a i (!(i.kind == Kind.Constant)) with
  | error e => rw [hm] at h; cases h
  | ok m =>
    rw [hm, except_bind_ok] at h
    refine ⟨m, rfl, ?_⟩
    by_cases hk : i.kind = Kind.Constant
    · rw [if_pos hk] at h
      cases h
      exact Or.inl ⟨hk, rfl⟩
    · rw [if_neg hk] at h
      cases hinfo : to_arginfo m with
      | error e => rw [hinfo] at h; cases h
      | ok info =>
        rw [hinfo, except_bind_ok] at h
        cases h
        exact Or.inr ⟨hk, info, rfl, rfl⟩

/-- A type is classified as `Constant` only when it is a scalar numeric type,
and the inferred descriptor is then `("", Constant, [t], 0, "")`. -/
theorem inferrer_constant (T : CppType) (h : (SingleArgInferrer T).kind = Kind.Constant) :
    ∃ t, T = CppType.other t ∧
      (t.is_scalar && (t.is_int || t.is_uint || t.is_float)) = true ∧
      SingleArgInferrer T = ⟨"", Kind.Constant, [t], 0, ""⟩ := by
  cases T with
  | Func => cases h
  | Expr => cases h
  | other t =>
    simp only [SingleArgInferrer] at h ⊢
    by_cases hc : (t.is_scalar && (t.is_int || t.is_uint || t.is_float)) = true
    · rw [if_pos hc]
      exact ⟨t, rfl, hc, rfl⟩
    · rw [if_neg hc] at h
      cases h

/-- The kind inferred for a type is never `Buffer`. -/
theorem inferrer_kind_ne_buffer (T : CppType) : (SingleArgInferrer T).kind ≠ Kind.Buffer := by
  cases T with
  | Func => exact fun h => by cases h
  | Expr => exact fun h => by cases h
  | other t =>
    simp only [SingleArgInferrer]
    by_cases hc : (t.is_scalar && (t.is_int || t.is_uint || t.is_float)) = true
    · rw [if_pos hc]
      exact fun h => by cases h
    · rw [if_neg hc]
      exact fun h => by cases h

/-- A successful merge of one field returns the inferred value when that one
is specified. -/
theorem get_matching_value_ok_of_inferred {α : Type} [FieldType α] [DecidableEq α]
    (a i v : α) (n f : String) (h : get_matching_value a i n f = Except.ok v)
    (hi : is_specified i = true) : v = i := by
  rcases get_matching_value_ok a i v n f h with ⟨-, e, h1⟩ | ⟨-, -, e⟩
  · rw [e]; exact h1 hi
  · exact e

/-- A successful merge of one field returns the annotated value, which is then
specified, when the inferred one is not specified. -/
theorem get_matching_value_ok_of_not_inferred {α : Type} [FieldType α] [DecidableEq α]
    (a i v : α) (n f : String) (h : get_matching_value a i n f = Except.ok v)
    (hi : ¬ is_specified i = true) : v = a ∧ is_specified a = true := by
  rcases get_matching_value_ok a i v n f h with ⟨ha, e, -⟩ | ⟨-, h1, -⟩
  · exact ⟨e, ha⟩
  · exact absurd h1 hi

/-- The merge at a position whose type is classified as `Constant`: the result
is the annotated name, `Constant`, the inferred types, 0 dimensions and the
annotated default value, which is not empty. -/
theorem match_constant_position (a m : SingleArg) (T : CppType)
    (hk : (SingleArgInferrer T).kind = Kind.Constant)
    (h : SingleArg.«match» a (SingleArgInferrer T) false = Except.ok m) :
    m = ⟨a.name, Kind.Constant, (SingleArgInferrer T).types, 0, a.default_value⟩ ∧
      a.default_value ≠ "" := by
  obtain ⟨t, -, -, hi⟩ := inferrer_constant T hk
  obtain ⟨hn, h1, h2, h3, h4, h5⟩ := (match_ok_iff _ _ _ _).1 h
  simp only [SingleArg.match_default, Bool.false_eq_true, if_false] at h5
  rw [hi] at h1 h2 h3 h4 h5 ⊢
  have k1 := (get_matching_value_ok_of_not_inferred _ _ _ _ _ h1
    (by simp [is_specified_string])).1
  have k2 := get_matching_value_ok_of_inferred _ _ _ _ _ h2 (by simp [is_specified_kind])
  have k3 := get_matching_value_ok_of_inferred _ _ _ _ _ h3 (by simp [is_specified_types])
  have k4 := get_matching_value_ok_of_inferred _ _ _ _ _ h4
    (by simp [is_specified_dimensions])
  have k5 := get_matching_value_ok_of_not_inferred _ _ _ _ _ h5
    (by simp [is_specified_string])
  refine ⟨?_, (is_specified_string _).1 k5.2⟩
  cases m with
  | mk mn mk mt md mv =>
    simp only at k1 k2 k3 k4 k5
    rw [k1, k2, k3, k4, k5.1]

/-- The flag passed to `SingleArg::match` at a position classified as
`Constant` is `false`. -/
theorem skip_of_constant (i : SingleArg) (h : i.kind = Kind.Constant) :
    (!(i.kind == Kind.Constant)) = false := by
  simp [h]

/-- The flag passed to `SingleArg::match` at a position not classified as
`Constant` is `true`. -/
theorem skip_of_not_constant (i : SingleArg) (h : i.kind ≠ Kind.Constant) :
    (!(i.kind == Kind.Constant)) = true := by
  simp [h]

/-- When the loop succeeds on inferred descriptors that come from the
classifier, there is one merged descriptor per position; the constants gained
are the merged descriptors of the positions classified as `Constant`, and the
inputs gained are the conversions of the merged descriptors of the other
positions, both in their original order. -/
theorem process_args_partition (as : List SingleArg) (ts : List CppType)
    (d d1 : ArgInfoDetector)
    (h : process_args as (ts.map SingleArgInferrer) d = Except.ok d1) :
    ∃ ms xs,
      List.Forall₂ (fun (p : SingleArg × CppType) m =>
          SingleArg.«match» p.1 (SingleArgInferrer p.2)
            (!((SingleArgInferrer p.2).kind == Kind.Constant)) = Except.ok m)
        (as.zip ts) ms ∧
      d1.constants_ = d.constants_ ++
        ((ts.zip ms).filter
          (fun p => (SingleArgInferrer p.1).kind == Kind.Constant)).map Prod.snd ∧
      List.Forall₂ (fun m x => to_arginfo m = Except.ok x)
        (((ts.zip ms).filter
          (fun p => !((SingleArgInferrer p.1).kind == Kind.Constant))).map Prod.snd) xs ∧
      d1.inputs_ = d.inputs_ ++ xs ∧ d1.outputs_ = d.outputs_ := by
  induction as generalizing ts d with
  | nil =>
    cases ts <;>
      (simp only [process_args, List.map, pure, Except.pure, Except.ok.injEq] at h
       subst h
       exact ⟨[], [], by simp⟩)
  | cons a as ih =>
    cases ts with
    | nil =>
      simp only [process_args, List.map, pure, Except.pure, Except.ok.injEq] at h
      subst h
      exact ⟨[], [], by simp⟩
    | cons T ts =>
      rw [List.map_cons, process_args_cons] at h
      cases hd : process_arg d a (SingleArgInferrer T) with
      | error e => rw [hd] at h; cases h
      | ok d2 =>
        rw [hd, except_bind_ok] at h
        obtain ⟨ms, xs, hms, hc, hxs, hi, ho⟩ := ih ts d2 h
        obtain ⟨m, hm, hcase⟩ := process_arg_ok_cases d d2 a _ hd
        rcases hcase with ⟨hk, e⟩ | ⟨hk, info, hinfo, e⟩
        · have hm1 := hm
          rw [skip_of_constant _ hk] at hm1
          have hreb := (match_constant_position a m T hk hm1).1
          have hm2 : (⟨m.name, Kind.Constant, m.types, 0, m.default_value⟩ : SingleArg) = m := by
            rw [hreb]
          refine ⟨m :: ms, xs, List.Forall₂.cons hm hms, ?_, ?_, ?_, ?_⟩
          · rw [hc, e, hm2]
            simp [hk]
          · simpa [hk] using hxs
          · rw [hi, e]
          · rw [ho, e]
        · refine ⟨m :: ms, info :: xs, List.Forall₂.cons hm hms, ?_, ?_, ?_, ?_⟩
          · rw [hc, e]
            simp [hk]
          · simpa [hk] using And.intro hinfo hxs
          · rw [hi, e]
            simp
          · rw [ho, e]

/-- When the loop succeeds on inferred descriptors that come from the
classifier, the constants gained are, for the positions classified as
`Constant` in order, the annotated name and default value together with
`Constant`, the inferred types and 0 dimensions; each is the merged descriptor
of its position, and its default value is not empty. -/
theorem process_args_constants (as : List SingleArg) (ts : List CppType)
    (d d1 : ArgInfoDetector)
    (h : process_args as (ts.map SingleArgInferrer) d = Except.ok d1) :
    d1.constants_ = d.constants_ ++
        ((as.zip ts).filter (fun p => (SingleArgInferrer p.2).kind == Kind.Constant)).map
          (fun p => ⟨p.1.name, Kind.Constant, (SingleArgInferrer p.2).types, 0,
            p.1.default_value⟩) ∧
      ∀ p ∈ as.zip ts, (SingleArgInferrer p.2).kind = Kind.Constant →
        SingleArg.«match» p.1 (SingleArgInferrer p.2) false
            = Except.ok ⟨p.1.name, Kind.Constant, (SingleArgInferrer p.2).types, 0,
              p.1.default_value⟩ ∧
          p.1.default_value ≠ "" := by
  induction as generalizing ts d with
  | nil =>
    cases ts <;>
      (simp only [process_args, List.map, pure, Except.pure, Except.ok.injEq] at h
       subst h
       simp)
  | cons a as ih =>
    cases ts with
    | nil =>
      simp only [process_args, List.map, pure, Except.pure, Except.ok.injEq] at h
      subst h
      simp
    | cons T ts =>
      rw [List.map_cons, process_args_cons] at h
      cases hd : process_arg d a (SingleArgInferrer T) with
      | error e => rw [hd] at h; cases h
      | ok d2 =>
        rw [hd, except_bind_ok] at h
        obtain ⟨hc, hall⟩ := ih ts d2 h
        obtain ⟨m, hm, hcase⟩ := process_arg_ok_cases d d2 a _ hd
        rcases hcase with ⟨hk, e⟩ | ⟨hk, info, hinfo, e⟩
        · rw [skip_of_constant _ hk] at hm
          obtain ⟨hreb, hv⟩ := match_constant_position a m T hk hm
          constructor
          · rw [hc, e, hreb]
            simp [hk]
          · intro p hp hpk
            rw [List.zip_cons_cons, List.mem_cons] at hp
            rcases hp with hp | hp
            · subst hp
              exact ⟨hreb ▸ hm, hv⟩
            · exact hall p hp hpk
        · constructor
          · rw [hc, e]
            simp [hk]
          · intro p hp hpk
            rw [List.zip_cons_cons, List.mem_cons] at hp
            rcases hp with hp | hp
            · subst hp
              exact absurd hpk hk
            · exact hall p hp hpk

/-- When the loop succeeds, every entry gained by the inputs is the conversion
of the merge, with the default value skipped, of an annotation with the
descriptor inferred for a type that is not classified as `Constant`. -/
theorem process_args_inputs_origin (as : List SingleArg) (ts : List CppType)
    (d d1 : ArgInfoDetector)
    (h : process_args as (ts.map SingleArgInferrer) d = Except.ok d1) :
    ∀ x ∈ d1.inputs_, x ∈ d.inputs_ ∨
      ∃ a ∈ as, ∃ T ∈ ts, (SingleArgInferrer T).kind ≠ Kind.Constant ∧
        ∃ m, SingleArg.«match» a (SingleArgInferrer T) true = Except.ok m ∧
          to_arginfo m = Except.ok x := by
  induction as generalizing ts d with
  | nil =>
    cases ts <;>
      (simp only [process_args, List.map, pure, Except.pure, Except.ok.injEq] at h
       subst h
       exact fun x hx => Or.inl hx)
  | cons a as ih =>
    cases ts with
    | nil =>
      simp only [process_args, List.map, pure, Except.pure, Except.ok.injEq] at h
      subst h
      exact fun x hx => Or.inl hx
    | cons T ts =>
      rw [List.map_cons, process_args_cons] at h
      cases hd : process_arg d a (SingleArgInferrer T) with
      | error e => rw [hd] at h; cases h
      | ok d2 =>
        rw [hd, except_bind_ok] at h
        obtain ⟨m, hm, hcase⟩ := process_arg_ok_cases d d2 a _ hd
        intro x hx
        rcases ih ts d2 h x hx with hx2 | ⟨a1, ha1, T1, hT1, hk1, m1, hm1, hx1⟩
        · rcases hcase with ⟨hk, e⟩ | ⟨hk, info, hinfo, e⟩
          · rw [e] at hx2
            exact Or.inl hx2
          · rw [e] at hx2
            simp only [List.mem_append, List.mem_singleton] at hx2
            rcases hx2 with hx2 | hx2
            · exact Or.inl hx2
            · rw [skip_of_not_constant _ hk] at hm
              exact Or.inr ⟨a, List.mem_cons_self _ _, T, List.mem_cons_self _ _, hk, m, hm,
                hx2 ▸ hinfo⟩
        · exact Or.inr ⟨a1, List.mem_cons_of_mem _ ha1, T1, List.mem_cons_of_mem _ hT1, hk1,
            m1, hm1, hx1⟩

/-- Each position processed by the loop adds one entry, to the constants or to
the inputs. -/
theorem process_args_length (as is : List SingleArg) (d d1 : ArgInfoDetector)
    (h : process_args as is d = Except.ok d1) :
    d1.constants_.length + d1.inputs_.length
      = d.constants_.length + d.inputs_.length + min as.length is.length := by
  induction as generalizing is d with
  | nil =>
    cases is <;>
      (simp only [process_args, pure, Except.pure, Except.ok.injEq] at h
       subst h
       simp)
  | cons a as ih =>
    cases is with
    | nil =>
      simp only [process_args, pure, Except.pure, Except.ok.injEq] at h
      subst h
      simp
    | cons i is =>
      rw [process_args_cons] at h
      cases hd : process_arg d a i with
      | error e => rw [hd] at h; cases h
      | ok d2 =>
        rw [hd, except_bind_ok] at h
        have h2 := ih is d2 h
        obtain ⟨m, -, hcase⟩ := process_arg_ok_cases d d2 a i hd
        rcases hcase with ⟨-, e⟩ | ⟨-, info, -, e⟩ <;>
          (rw [e] at h2
           simp only [List.length_append, List.length_cons, List.length_nil] at h2 ⊢
           omega)

/-- When the arities agree and the loop fails, the construction fails with the
failure of the loop. -/
theorem construct_of_loop_error (args : List CppType) (ret : CppType)
    (inputs : List SingleArg) (output : SingleArg) (e : Failure)
    (hl : args.length = inputs.length)
    (h : process_args inputs (args.map SingleArgInferrer) ⟨[], [], []⟩ = Except.error e) :
    construct args ret inputs output = Except.error e := by
  rw [construct_eq, if_pos hl, h]
  rfl

/-- A successful construction, as the success of each of its stages. -/
theorem construct_ok_iff (args : List CppType) (ret : CppType) (inputs : List SingleArg)
    (output : SingleArg) (d : ArgInfoDetector) :
    construct args ret inputs output = Except.ok d ↔
      args.length = inputs.length ∧
      ∃ d0, process_args inputs (args.map SingleArgInferrer) ⟨[], [], []⟩ = Except.ok d0 ∧
        (SingleArgInferrer ret).kind ≠ Kind.Constant ∧
        ∃ m, SingleArg.«match» output (SingleArgInferrer ret) true = Except.ok m ∧
          ∃ x, to_arginfo m = Except.ok x ∧
            d = ⟨d0.constants_, d0.inputs_, d0.outputs_ ++ [x]⟩ := by
  rw [construct_eq]
  by_cases hl : args.length = inputs.length
  swap
  · rw [if_neg hl]
    constructor
    · intro h; cases h
    · intro h; exact absurd h.1 hl
  rw [if_pos hl]
  cases hp : process_args inputs (args.map SingleArgInferrer) ⟨[], [], []⟩ with
  | error e =>
    constructor
    · intro h; cases h
    · rintro ⟨-, d0, h0, -⟩; cases h0
  | ok d0 =>
    rw [except_bind_ok]
    by_cases hk : (SingleArgInferrer ret).kind = Kind.Constant
    · rw [if_pos hk]
      constructor
      · intro h; cases h
      · rintro ⟨-, d1, -, h1, -⟩; exact absurd hk h1
    rw [if_neg hk]
    cases hm : SingleArg.«match» output (SingleArgInferrer ret) true with
    | error e =>
      constructor
      · intro h; cases h
      · rintro ⟨-, d1, -, -, m, h1, -⟩; cases h1
    | ok m =>
      rw [except_bind_ok]
      cases hx : to_arginfo m with
      | error e =>
        constructor
        · intro h; cases h
        · rintro ⟨-, d1, -, -, m1, h1, x, h2, -⟩
          cases h1
          rw [hx] at h2
          cases h2
      | ok x =>
        rw [except_bind_ok]
        constructor
        · intro h
          cases h
          exact ⟨hl, d0, rfl, hk, m, rfl, x, hx, rfl⟩
        · rintro ⟨-, d1, h0, -, m1, h1, x1, h2, e⟩
          cases h0
          cases h1
          rw [hx] at h2
          cases h2
          rw [e]

/-- A successful `SingleArg::match` returns the annotated name. -/
theorem match_ok_name (a i r : SingleArg) (s : Bool)
    (h : SingleArg.«match» a i s = Except.ok r) : r.name = a.name := by
  obtain ⟨hn, h1, -⟩ := (match_ok_iff a i r s).1 h
  rcases get_matching_value_ok _ _ _ _ _ h1 with ⟨-, e, -⟩ | ⟨ha, -, -⟩
  · exact e
  · exact absurd ((is_specified_string _).2 hn) ha

/-- Without skipping the default value, two empty default values make
`SingleArg::match` fail with a user error. -/
theorem match_user_error_of_no_default (a i : SingleArg)
    (ha : a.default_value = "") (hi : i.default_value = "") :
    ∃ e, SingleArg.«match» a i false = Except.error e ∧ e.is_user = true := by
  have h5 : SingleArg.match_default a i false
      = Except.error (Failure.no_value a.name "default_value") := by
    simp only [SingleArg.match_default, Bool.false_eq_true, if_false]
    exact get_matching_value_unspecified _ _ _ _
      (by simp [is_specified_string, ha]) (by simp [is_specified_string, hi])
  cases hm : SingleArg.«match» a i false with
  | ok r =>
    have h6 := ((match_ok_iff a i r false).1 hm).2.2.2.2.2
    rw [h5] at h6
    cases h6
  | error e =>
    refine ⟨e, rfl, ?_⟩
    rcases match_error_cases a i false e hm with hu | ⟨hs, -⟩
    · exact hu
    · cases hs

/-- When the step of the loop fails with a user error for the annotation and
the inferred descriptor found at some position, the construction fails. -/
theorem construct_fails_at (args : List CppType) (ret : CppType) (inputs : List SingleArg)
    (output : SingleArg) (k : Nat) (a : SingleArg) (T : CppType)
    (ha : inputs[k]? = some a) (hT : args[k]? = some T)
    (hfail : ∀ d1, ∃ e, process_arg d1 a (SingleArgInferrer T) = Except.error e ∧
      e.is_user = true) :
    ∃ e, construct args ret inputs output = Except.error e := by
  by_cases hl : args.length = inputs.length
  · have hi : (args.map SingleArgInferrer)[k]? = some (SingleArgInferrer T) := by
      rw [List.getElem?_map, hT]
      rfl
    obtain ⟨⟨e, he⟩, -⟩ :=
      process_args_fails_at k inputs (args.map SingleArgInferrer) a _ ⟨[], [], []⟩ ha hi hfail
    exact ⟨e, construct_of_loop_error args ret inputs output e hl he⟩
  · rw [construct_eq, if_neg hl]
    exact ⟨_, rfl⟩

/-- A failing merge makes the step of the loop fail with the same failure. -/
theorem process_arg_of_match_error (d : ArgInfoDetector) (a i : SingleArg) (e : Failure)
    (h : SingleArg.«match» a i (!(i.kind == Kind.Constant)) = Except.error e) :
    process_arg d a i = Except.error e := by
  rw [process_arg_eq, h]
  rfl

end loop_lemmas

/-! ## The role classifier and further properties of the merge -/

section classifier_claims

open SingleArg ArgInfoDetector

/-- C11: `SingleArgInferrer` maps a scalar integer, unsigned or floating-point
type `T` to `("", Constant, [T], 0)`, `Func` to `("", Function, [], -1)`, `Expr`
to `("", Expression, [], 0)` and every other type to `("", Unknown, [], -1)`;
the inferred name and default value are always empty. -/
theorem C11_inferrer_mapping :
    (∀ t : HalideType, t.is_scalar = true →
      (t.is_int = true ∨ t.is_uint = true ∨ t.is_float = true) →
      SingleArgInferrer (CppType.other t) = ⟨"", Kind.Constant, [t], 0, ""⟩) ∧
    SingleArgInferrer CppType.Func = ⟨"", Kind.Function, [], -1, ""⟩ ∧
    SingleArgInferrer CppType.Expr = ⟨"", Kind.Expression, [], 0, ""⟩ ∧
    (∀ t : HalideType,
      ¬ (t.is_scalar = true ∧ (t.is_int = true ∨ t.is_uint = true ∨ t.is_float = true)) →
      SingleArgInferrer (CppType.other t) = ⟨"", Kind.Unknown, [], -1, ""⟩) ∧
    (∀ T : CppType, (SingleArgInferrer T).name = "" ∧
      (SingleArgInferrer T).default_value = "") := by
  refine ⟨fun t hs hn => ?_, rfl, rfl, fun t h => ?_, fun T => ?_⟩
  · have hc : (t.is_scalar && (t.is_int || t.is_uint || t.is_float)) = true := by
      rcases hn with h | h | h <;> simp [hs, h]
    simp only [SingleArgInferrer]
    rw [if_pos hc]
  · have hc : ¬ (t.is_scalar && (t.is_int || t.is_uint || t.is_float)) = true := by
      intro hb
      apply h
      simpa [Bool.and_eq_true, Bool.or_eq_true, or_assoc] using hb
    simp only [SingleArgInferrer]
    rw [if_neg hc]
  · cases T with
    | Func => exact ⟨rfl, rfl⟩
    | Expr => exact ⟨rfl, rfl⟩
    | other t =>
      simp only [SingleArgInferrer]
      by_cases hc : (t.is_scalar && (t.is_int || t.is_uint || t.is_float)) = true
      · rw [if_pos hc]
        exact ⟨rfl, rfl⟩
      · rw [if_neg hc]
        exact ⟨rfl, rfl⟩

/-- The types `int32` and an opaque handle are instances of the first and
fourth cases of C11. -/
theorem C11_inferrer_mapping_witness :
    SingleArgInferrer (CppType.other (Int_ 32)) = ⟨"", Kind.Constant, [Int_ 32], 0, ""⟩ ∧
    SingleArgInferrer (CppType.other ⟨TypeCode.Handle, 64, 1⟩)
      = ⟨"", Kind.Unknown, [], -1, ""⟩ :=
  ⟨C11_inferrer_mapping.1 (Int_ 32) rfl (Or.inl rfl),
    C11_inferrer_mapping.2.2.2.1 ⟨TypeCode.Handle, 64, 1⟩ (by decide)⟩

/-- C16, as stated, fails: with every listed condition satisfied, an inferred
descriptor that carries a name different from the annotated one makes
`SingleArg::match` fail, while the same descriptor without a name merges. -/
theorem C16_inferred_name_counterexample :
    (⟨"input", Kind.Function, [Int_ 32], 2, ""⟩ : SingleArg).name ≠ "" ∧
    (⟨"input", Kind.Function, [Int_ 32], 2, ""⟩ : SingleArg).kind
      = (⟨"other", Kind.Function, [], -1, ""⟩ : SingleArg).kind ∧
    (⟨"input", Kind.Function, [Int_ 32], 2, ""⟩ : SingleArg).types ≠ [] ∧
    (⟨"other", Kind.Function, [], -1, ""⟩ : SingleArg).types = [] ∧
    0 ≤ (⟨"input", Kind.Function, [Int_ 32], 2, ""⟩ : SingleArg).dimensions ∧
    (⟨"other", Kind.Function, [], -1, ""⟩ : SingleArg).dimensions < 0 ∧
    (⟨"input", Kind.Function, [Int_ 32], 2, ""⟩ : SingleArg).default_value = "" ∧
    (⟨"other", Kind.Function, [], -1, ""⟩ : SingleArg).default_value = "" ∧
    SingleArg.«match» ⟨"input", Kind.Function, [Int_ 32], 2, ""⟩
        ⟨"other", Kind.Function, [], -1, ""⟩ true
      = Except.error (Failure.mismatch "input" "name") ∧
    SingleArg.«match» ⟨"input", Kind.Function, [Int_ 32], 2, ""⟩
        ⟨"", Kind.Function, [], -1, ""⟩ true
      = Except.ok ⟨"input", Kind.Function, [Int_ 32], 2, ""⟩ :=
  ⟨by decide, rfl, by decide, rfl, by decide, by decide, rfl, rfl, by rfl, by rfl⟩

/-- C16, amended: `SingleArg::match` succeeds exactly when the annotated name is
non-empty, the inferred name is empty or equal to the annotated one, each of
`kind`, `types` and `dimensions` is specified on at least one side and equal
where both sides specify it, and the default value is empty on both sides when
it is skipped, or specified on at least one side and equal where both specify
it when it is not skipped. -/
theorem C16_match_succeeds_iff (a i : SingleArg) (s : Bool) :
    (∃ r, SingleArg.«match» a i s = Except.ok r) ↔
      a.name ≠ "" ∧ (i.name = "" ∨ i.name = a.name) ∧
      ((a.kind ≠ Kind.Unknown ∨ i.kind ≠ Kind.Unknown) ∧
        (a.kind ≠ Kind.Unknown → i.kind ≠ Kind.Unknown → a.kind = i.kind)) ∧
      ((a.types ≠ [] ∨ i.types ≠ []) ∧
        (a.types ≠ [] → i.types ≠ [] → a.types = i.types)) ∧
      ((0 ≤ a.dimensions ∨ 0 ≤ i.dimensions) ∧
        (0 ≤ a.dimensions → 0 ≤ i.dimensions → a.dimensions = i.dimensions)) ∧
      (if s = true then a.default_value = "" ∧ i.default_value = ""
        else (a.default_value ≠ "" ∨ i.default_value ≠ "") ∧
          (a.default_value ≠ "" → i.default_value ≠ "" →
            a.default_value = i.default_value)) := by
  have hd : (∃ v, SingleArg.match_default a i s = Except.ok v) ↔
      (if s = true then a.default_value = "" ∧ i.default_value = ""
        else (a.default_value ≠ "" ∨ i.default_value ≠ "") ∧
          (a.default_value ≠ "" → i.default_value ≠ "" →
            a.default_value = i.default_value)) := by
    cases s with
    | true =>
      simp only [match_default_skip, if_true]
      constructor
      · rintro ⟨v, ha, hi, -⟩
        exact ⟨ha, hi⟩
      · rintro ⟨ha, hi⟩
        exact ⟨"", ha, hi, rfl⟩
    | false =>
      simp only [SingleArg.match_default, Bool.false_eq_true, if_false,
        get_matching_value_succeeds_iff, is_specified_string]
  rw [match_succeeds_iff, hd]
  simp only [get_matching_value_succeeds_iff, is_specified_string, is_specified_kind,
    is_specified_types, is_specified_dimensions]
  constructor
  · rintro ⟨hn, ⟨-, h1⟩, h2, h3, h4, h5⟩
    refine ⟨hn, ?_, h2, h3, h4, h5⟩
    by_cases hi : i.name = ""
    · exact Or.inl hi
    · exact Or.inr (h1 hn hi).symm
  · rintro ⟨hn, h1, h2, h3, h4, h5⟩
    refine ⟨hn, ⟨Or.inl hn, fun _ hi => ?_⟩, h2, h3, h4, h5⟩
    rcases h1 with h1 | h1
    · exact absurd h1 hi
    · exact h1.symm

/-- The merge of `Input("input", Int(32), 2)` with the descriptor inferred for
a `Func` parameter is an instance of the amended C16. -/
theorem C16_match_succeeds_iff_witness :
    ∃ r, SingleArg.«match» (Input_type_dims "input" (Int_ 32) 2)
      (SingleArgInferrer CppType.Func) true = Except.ok r :=
  (C16_match_succeeds_iff (Input_type_dims "input" (Int_ 32) 2)
    (SingleArgInferrer CppType.Func) true).2
    ⟨by decide, Or.inl rfl, ⟨Or.inr (by decide), fun h => absurd rfl h⟩,
      ⟨Or.inl (by decide), fun _ h => absurd rfl h⟩,
      ⟨Or.inl (by decide), fun _ h => absurd h (by decide)⟩, ⟨rfl, rfl⟩⟩

/-- C17: merging is idempotent: when `SingleArg::match` of `a` with `i` succeeds
with `r`, the merge of `r` with the same `i` and the same flag succeeds and
returns `r`. -/
theorem C17_match_idempotent (a i r : SingleArg) (s : Bool)
    (h : SingleArg.«match» a i s = Except.ok r) :
    SingleArg.«match» r i s = Except.ok r := by
  obtain ⟨hn, h1, h2, h3, h4, h5⟩ := (match_ok_iff a i r s).1 h
  have hr : r.name ≠ "" := (match_ok_specified a i r s h).1
  refine (match_ok_iff r i r s).2 ⟨hr, ?_, ?_, ?_, ?_, ?_⟩
  · exact get_matching_value_idem _ _ _ _ _ _ _ h1
  · exact get_matching_value_idem _ _ _ _ _ _ _ h2
  · exact get_matching_value_idem _ _ _ _ _ _ _ h3
  · exact get_matching_value_idem _ _ _ _ _ _ _ h4
  · cases s with
    | true =>
      obtain ⟨-, hi, hv⟩ := (match_default_skip a i r.default_value).1 h5
      exact (match_default_skip r i r.default_value).2 ⟨hv, hi, hv⟩
    | false =>
      simp only [SingleArg.match_default, Bool.false_eq_true, if_false] at h5 ⊢
      exact get_matching_value_idem _ _ _ _ _ _ _ h5

/-- The merge of `Constant("scaling", "2")` with the descriptor inferred for an
`int` parameter is an instance of C17. -/
theorem C17_match_idempotent_witness :
    SingleArg.«match» (Constant "scaling" "2")
        (SingleArgInferrer (CppType.other (Int_ 32))) false
      = Except.ok ⟨"scaling", Kind.Constant, [Int_ 32], 0, "2"⟩ ∧
    SingleArg.«match» ⟨"scaling", Kind.Constant, [Int_ 32], 0, "2"⟩
        (SingleArgInferrer (CppType.other (Int_ 32))) false
      = Except.ok ⟨"scaling", Kind.Constant, [Int_ 32], 0, "2"⟩ :=
  ⟨by rfl,
    C17_match_idempotent (Constant "scaling" "2")
      (SingleArgInferrer (CppType.other (Int_ 32)))
      ⟨"scaling", Kind.Constant, [Int_ 32], 0, "2"⟩ false (by rfl)⟩

end classifier_claims

/-! ## The partition into constants, inputs and outputs -/

section partition_claims

open SingleArg ArgInfoDetector

/-- C12: when the construction succeeds there is one merged descriptor per
position; `constants()` lists the merged descriptors of the positions whose
type is classified as `Constant`, `inputs()` lists the conversions by
`to_arginfo` of the merged descriptors of the other positions, both in the
original order, so that the two lengths add up to the arity; `outputs()` has
exactly one entry, whose name is the name of the output annotation. -/
theorem C12_partition (args : List CppType) (ret : CppType) (inputs : List SingleArg)
    (output : SingleArg) (d : ArgInfoDetector)
    (h : construct args ret inputs output = Except.ok d) :
    (∃ ms,
      ms.length = args.length ∧
      List.Forall₂ (fun (p : SingleArg × CppType) m =>
          SingleArg.«match» p.1 (SingleArgInferrer p.2)
            (!((SingleArgInferrer p.2).kind == Kind.Constant)) = Except.ok m)
        (inputs.zip args) ms ∧
      d.constants =
        ((args.zip ms).filter
          (fun p => (SingleArgInferrer p.1).kind == Kind.Constant)).map Prod.snd ∧
      List.Forall₂ (fun m x => to_arginfo m = Except.ok x)
        (((args.zip ms).filter
          (fun p => !((SingleArgInferrer p.1).kind == Kind.Constant))).map Prod.snd)
        d.inputs) ∧
    d.constants.length + d.inputs.length = args.length ∧
    (∃ m x, SingleArg.«match» output (SingleArgInferrer ret) true = Except.ok m ∧
      to_arginfo m = Except.ok x ∧ d.outputs = [x] ∧ x.name = output.name) := by
  obtain ⟨hl, d0, hp, -, m, hm, x, hx, rfl⟩ := (construct_ok_iff _ _ _ _ _).1 h
  obtain ⟨ms, xs, hms, hc, hxs, hi, ho⟩ := process_args_partition _ _ _ _ hp
  have hlen := process_args_length _ _ _ _ hp
  simp only [List.nil_append, List.length_nil, List.length_map, Nat.zero_add] at hc hi ho hlen
  refine ⟨⟨ms, ?_, hms, hc, ?_⟩, ?_, m, x, hm, hx, ?_, ?_⟩
  · have := hms.length_eq
    rw [List.length_zip] at this
    omega
  · show List.Forall₂ _ _ d0.inputs_
    rw [hi]
    exact hxs
  · show d0.constants_.length + d0.inputs_.length = args.length
    omega
  · show d0.outputs_ ++ [x] = [x]
    rw [ho]
    rfl
  · rw [(to_arginfo_ok m x hx).1]
    exact match_ok_name _ _ _ _ hm

/-- The detector of `g2_test` is an instance of C12: two inputs, one constant
and one output named after the output annotation. -/
theorem C12_partition_witness :
    (⟨[⟨"scaling", Kind.Constant, [Int_ 32], 0, "2"⟩],
        [⟨"input", IOKind.Function, [Int_ 32], 2⟩, ⟨"offset", IOKind.Scalar, [Int_ 32], 0⟩],
        [⟨"output", IOKind.Function, [Int_ 32], 2⟩]⟩ : ArgInfoDetector).constants.length
      + (⟨[⟨"scaling", Kind.Constant, [Int_ 32], 0, "2"⟩],
        [⟨"input", IOKind.Function, [Int_ 32], 2⟩, ⟨"offset", IOKind.Scalar, [Int_ 32], 0⟩],
        [⟨"output", IOKind.Function, [Int_ 32], 2⟩]⟩ : ArgInfoDetector).inputs.length
      = [CppType.Func, CppType.Expr, CppType.other (Int_ 32)].length :=
  (C12_partition [CppType.Func, CppType.Expr, CppType.other (Int_ 32)] CppType.Func
    [Input_type_dims "input" (Int_ 32) 2, Input_type "offset" (Int_ 32),
      Constant "scaling" "2"]
    (Output_type_dims "output" (Int_ 32) 2)
    ⟨[⟨"scaling", Kind.Constant, [Int_ 32], 0, "2"⟩],
      [⟨"input", IOKind.Function, [Int_ 32], 2⟩, ⟨"offset", IOKind.Scalar, [Int_ 32], 0⟩],
      [⟨"output", IOKind.Function, [Int_ 32], 2⟩]⟩ (by rfl)).2.1

/-- C14, as stated, fails: the construction of the detector of `g2_test`
succeeds, while the merge of its output annotation with the descriptor inferred
for its return type fails when the default value is not skipped. -/
theorem C14_output_merge_counterexample :
    (∃ d, construct [CppType.Func, CppType.Expr, CppType.other (Int_ 32)] CppType.Func
        [Input_type_dims "input" (Int_ 32) 2, Input_type "offset" (Int_ 32),
          Constant "scaling" "2"]
        (Output_type_dims "output" (Int_ 32) 2) = Except.ok d ∧
      d.outputs = [⟨"output", IOKind.Function, [Int_ 32], 2⟩]) ∧
    SingleArg.«match» (Output_type_dims "output" (Int_ 32) 2)
        (SingleArgInferrer CppType.Func) false
      = Except.error (Failure.no_value "output" "default_value") :=
  ⟨⟨⟨[⟨"scaling", Kind.Constant, [Int_ 32], 0, "2"⟩],
      [⟨"input", IOKind.Function, [Int_ 32], 2⟩, ⟨"offset", IOKind.Scalar, [Int_ 32], 0⟩],
      [⟨"output", IOKind.Function, [Int_ 32], 2⟩]⟩, by rfl, rfl⟩, by rfl⟩

/-- C14, amended: the construction merges the return type against the output
annotation with `skip_default_value = true`, the default argument of
`SingleArg::match`: on success `outputs()` is the conversion of that merge, and
the construction fails exactly when the arity check, the loop over the
parameters, the check of a constant return type, that merge or its conversion
fails. -/
theorem C14_output_merge (args : List CppType) (ret : CppType) (inputs : List SingleArg)
    (output : SingleArg) :
    (∀ d, construct args ret inputs output = Except.ok d →
      ∃ m x, SingleArg.«match» output (SingleArgInferrer ret) true = Except.ok m ∧
        to_arginfo m = Except.ok x ∧ d.outputs = [x]) ∧
    ((∃ e, construct args ret inputs output = Except.error e) ↔
      (args.length ≠ inputs.length ∨
        (∃ e, process_args inputs (args.map SingleArgInferrer) ⟨[], [], []⟩
          = Except.error e) ∨
        (SingleArgInferrer ret).kind = Kind.Constant ∨
        (∃ e, SingleArg.«match» output (SingleArgInferrer ret) true = Except.error e) ∨
        (∃ m e, SingleArg.«match» output (SingleArgInferrer ret) true = Except.ok m ∧
          to_arginfo m = Except.error e))) := by
  constructor
  · intro d h
    obtain ⟨-, d0, hp, -, m, hm, x, hx, rfl⟩ := (construct_ok_iff _ _ _ _ _).1 h
    refine ⟨m, x, hm, hx, ?_⟩
    show d0.outputs_ ++ [x] = [x]
    rw [(process_args_ok _ _ _ _ hp).1]
    rfl
  · constructor
    · rintro ⟨e, he⟩
      by_contra hcon
      simp only [not_or, not_exists, ne_eq, not_not, not_and] at hcon
      obtain ⟨hl, hp, hk, hm, hx⟩ := hcon
      cases hp0 : process_args inputs (args.map SingleArgInferrer) ⟨[], [], []⟩ with
      | error e0 => exact hp e0 hp0
      | ok d0 =>
        cases hm0 : SingleArg.«match» output (SingleArgInferrer ret) true with
        | error e1 => exact hm e1 hm0
        | ok m =>
          cases hx0 : to_arginfo m with
          | error e2 => exact hx m e2 hm0 hx0
          | ok x =>
            have hok := (construct_ok_iff args ret inputs output _).2
              ⟨hl, d0, hp0, hk, m, hm0, x, hx0, rfl⟩
            rw [hok] at he
            cases he
    · intro hdis
      cases hc : construct args ret inputs output with
      | error e => exact ⟨e, rfl⟩
      | ok d =>
        obtain ⟨hl, d0, hp, hk, m, hm, x, hx, -⟩ := (construct_ok_iff _ _ _ _ _).1 hc
        rcases hdis with h | ⟨e, h⟩ | h | ⟨e, h⟩ | ⟨m1, e, h1, h2⟩
        · exact absurd hl h
        · rw [hp] at h; cases h
        · exact absurd h hk
        · rw [hm] at h; cases h
        · rw [hm] at h1
          cases h1
          rw [hx] at h2
          cases h2

/-- The detector of `g2_test`, and the same callable with an output annotation
that carries a default value, are instances of the amended C14. -/
theorem C14_output_merge_witness :
    (∃ m x, SingleArg.«match» (Output_type_dims "output" (Int_ 32) 2)
        (SingleArgInferrer CppType.Func) true = Except.ok m ∧
      to_arginfo m = Except.ok x ∧
      (⟨[⟨"scaling", Kind.Constant, [Int_ 32], 0, "2"⟩],
        [⟨"input", IOKind.Function, [Int_ 32], 2⟩, ⟨"offset", IOKind.Scalar, [Int_ 32], 0⟩],
        [⟨"output", IOKind.Function, [Int_ 32], 2⟩]⟩ : ArgInfoDetector).outputs = [x]) ∧
    (∃ e, construct [CppType.Func] CppType.Func [Input_type_dims "input" (Int_ 32) 2]
      ⟨"output", Kind.Unknown, [Int_ 32], 2, "7"⟩ = Except.error e) :=
  ⟨(C14_output_merge [CppType.Func, CppType.Expr, CppType.other (Int_ 32)] CppType.Func
      [Input_type_dims "input" (Int_ 32) 2, Input_type "offset" (Int_ 32),
        Constant "scaling" "2"]
      (Output_type_dims "output" (Int_ 32) 2)).1 _ (by rfl),
    (C14_output_merge [CppType.Func] CppType.Func [Input_type_dims "input" (Int_ 32) 2]
      ⟨"output", Kind.Unknown, [Int_ 32], 2, "7"⟩).2.2
      (Or.inr (Or.inr (Or.inr (Or.inl ⟨Failure.not_both_empty, by rfl⟩))))⟩

/-- C15: when a parameter is classified as `Constant` and its annotation has an
empty default value, the construction fails; so it does for every annotation
built with `Input` on such a parameter. Hence, after a successful construction,
every entry of `constants()` has a non-empty default value and every entry of
`inputs()` comes from a parameter that is not classified as `Constant`. -/
theorem C15_constant_needs_default (args : List CppType) (ret : CppType)
    (inputs : List SingleArg) (output : SingleArg) :
    (∀ (k : Nat) (a : SingleArg) (T : CppType), inputs[k]? = some a → args[k]? = some T →
      (SingleArgInferrer T).kind = Kind.Constant → a.default_value = "" →
      ∃ e, construct args ret inputs output = Except.error e) ∧
    (∀ (k : Nat) (T : CppType) (n : String) (t : List HalideType) (dims : Int),
      inputs[k]? = some (Input n t dims) → args[k]? = some T →
      (SingleArgInferrer T).kind = Kind.Constant →
      ∃ e, construct args ret inputs output = Except.error e) ∧
    (∀ d, construct args ret inputs output = Except.ok d →
      (∀ c ∈ d.constants, c.default_value ≠ "") ∧
      (∀ x ∈ d.inputs, ∃ a ∈ inputs, ∃ T ∈ args,
        (SingleArgInferrer T).kind ≠ Kind.Constant ∧
        ∃ m, SingleArg.«match» a (SingleArgInferrer T) true = Except.ok m ∧
          to_arginfo m = Except.ok x)) := by
  have hmain : ∀ (k : Nat) (a : SingleArg) (T : CppType),
      inputs[k]? = some a → args[k]? = some T →
      (SingleArgInferrer T).kind = Kind.Constant → a.default_value = "" →
      ∃ e, construct args ret inputs output = Except.error e := by
    intro k a T ha hT hk hv
    apply construct_fails_at args ret inputs output k a T ha hT
    intro d1
    obtain ⟨t, -, -, hi⟩ := inferrer_constant T hk
    obtain ⟨e, he, hu⟩ := match_user_error_of_no_default a (SingleArgInferrer T) hv
      (by rw [hi])
    refine ⟨e, process_arg_of_match_error d1 a _ e ?_, hu⟩
    rw [skip_of_constant _ hk]
    exact he
  refine ⟨hmain, fun k T n t dims ha hT hk => hmain k _ T ha hT hk rfl, fun d h => ?_⟩
  obtain ⟨-, d0, hp, -, m, hm, x, hx, rfl⟩ := (construct_ok_iff _ _ _ _ _).1 h
  constructor
  · intro c hc
    have hc0 : c ∈ d0.constants_ := hc
    obtain ⟨he, hall⟩ := process_args_constants _ _ _ _ hp
    rw [he, List.nil_append, List.mem_map] at hc0
    obtain ⟨p, hp1, rfl⟩ := hc0
    obtain ⟨hp2, hp3⟩ := List.mem_filter.1 hp1
    exact (hall p hp2 (by simpa using hp3)).2
  · intro y hy
    have hy0 : y ∈ d0.inputs_ := hy
    rcases process_args_inputs_origin _ _ _ _ hp y hy0 with h0 | h0
    · cases h0
    · exact h0

/-- An `Input` annotation on the `int` parameter of `g2_test` is an instance of
C15. -/
theorem C15_constant_needs_default_witness :
    ∃ e, construct [CppType.Func, CppType.Expr, CppType.other (Int_ 32)] CppType.Func
      [Input_type_dims "input" (Int_ 32) 2, Input_type "offset" (Int_ 32),
        Input_type_dims "scaling" (Int_ 32) 0]
      (Output_type_dims "output" (Int_ 32) 2) = Except.error e :=
  (C15_constant_needs_default [CppType.Func, CppType.Expr, CppType.other (Int_ 32)]
    CppType.Func
    [Input_type_dims "input" (Int_ 32) 2, Input_type "offset" (Int_ 32),
      Input_type_dims "scaling" (Int_ 32) 0]
    (Output_type_dims "output" (Int_ 32) 2)).1 2 (Input_type_dims "scaling" (Int_ 32) 0)
    (CppType.other (Int_ 32)) rfl rfl rfl rfl

/-- C18: after a successful construction, `constants()` holds, for the
positions of scalar numeric type in order, the annotated name, `Constant`, the
inferred types, 0 dimensions and the annotated default value; for a position of
scalar numeric type `t` this entry is the merged descriptor of the position,
with types `[t]`. -/
theorem C18_constants_are_merged (args : List CppType) (ret : CppType)
    (inputs : List SingleArg) (output : SingleArg) (d : ArgInfoDetector)
    (h : construct args ret inputs output = Except.ok d) :
    d.constants =
        ((inputs.zip args).filter
          (fun p => (SingleArgInferrer p.2).kind == Kind.Constant)).map
          (fun p => ⟨p.1.name, Kind.Constant, (SingleArgInferrer p.2).types, 0,
            p.1.default_value⟩) ∧
    (∀ (k : Nat) (a : SingleArg) (t : HalideType),
      inputs[k]? = some a → args[k]? = some (CppType.other t) →
      (t.is_scalar && (t.is_int || t.is_uint || t.is_float)) = true →
      SingleArg.«match» a (SingleArgInferrer (CppType.other t)) false
          = Except.ok ⟨a.name, Kind.Constant, [t], 0, a.default_value⟩ ∧
        (⟨a.name, Kind.Constant, [t], 0, a.default_value⟩ : SingleArg) ∈ d.constants) := by
  obtain ⟨-, d0, hp, -, m, hm, x, hx, rfl⟩ := (construct_ok_iff _ _ _ _ _).1 h
  obtain ⟨he, hall⟩ := process_args_constants _ _ _ _ hp
  rw [List.nil_append] at he
  refine ⟨he, fun k a t ha hT hnum => ?_⟩
  have hi : SingleArgInferrer (CppType.other t) = ⟨"", Kind.Constant, [t], 0, ""⟩ := by
    simp only [SingleArgInferrer]
    rw [if_pos hnum]
  have hk : (SingleArgInferrer (CppType.other t)).kind = Kind.Constant := by rw [hi]
  have hmem : (a, CppType.other t) ∈ inputs.zip args :=
    List.getElem?_mem (List.getElem?_zip_eq_some.2 ⟨ha, hT⟩)
  have h1 := (hall (a, CppType.other t) hmem hk).1
  rw [hi] at h1
  refine ⟨by rw [hi]; exact h1, ?_⟩
  show _ ∈ d0.constants_
  rw [he, List.mem_map]
  refine ⟨(a, CppType.other t), List.mem_filter.2 ⟨hmem, by simp [hk]⟩, ?_⟩
  simp only [hi]

/-- The constant `scaling` of the detector of `g2_test` is an instance of C18. -/
theorem C18_constants_are_merged_witness :
    SingleArg.«match» (Constant "scaling" "2")
        (SingleArgInferrer (CppType.other (Int_ 32))) false
      = Except.ok ⟨"scaling", Kind.Constant, [Int_ 32], 0, "2"⟩ ∧
    (⟨"scaling", Kind.Constant, [Int_ 32], 0, "2"⟩ : SingleArg) ∈
      (⟨[⟨"scaling", Kind.Constant, [Int_ 32], 0, "2"⟩],
        [⟨"input", IOKind.Function, [Int_ 32], 2⟩, ⟨"offset", IOKind.Scalar, [Int_ 32], 0⟩],
        [⟨"output", IOKind.Function, [Int_ 32], 2⟩]⟩ : ArgInfoDetector).constants :=
  (C18_constants_are_merged [CppType.Func, CppType.Expr, CppType.other (Int_ 32)]
    CppType.Func
    [Input_type_dims "input" (Int_ 32) 2, Input_type "offset" (Int_ 32),
      Constant "scaling" "2"]
    (Output_type_dims "output" (Int_ 32) 2)
    ⟨[⟨"scaling", Kind.Constant, [Int_ 32], 0, "2"⟩],
      [⟨"input", IOKind.Function, [Int_ 32], 2⟩, ⟨"offset", IOKind.Scalar, [Int_ 32], 0⟩],
      [⟨"output", IOKind.Function, [Int_ 32], 2⟩]⟩ (by rfl)).2 2 (Constant "scaling" "2")
    (Int_ 32) rfl rfl rfl

end partition_claims

/-! ## Annotations made by the builders -/

section builder_lemmas

open SingleArg ArgInfoDetector

/-- The inferred default value is always empty. -/
theorem inferrer_default (T : CppType) : (SingleArgInferrer T).default_value = "" := by
  cases T with
  | Func => rfl
  | Expr => rfl
  | other t =>
    simp only [SingleArgInferrer]
    by_cases hc : (t.is_scalar && (t.is_int || t.is_uint || t.is_float)) = true
    · rw [if_pos hc]
    · rw [if_neg hc]

/-- A type classified as `Unknown` has no inferred types. -/
theorem inferrer_unknown_types (T : CppType) (h : (SingleArgInferrer T).kind = Kind.Unknown) :
    (SingleArgInferrer T).types = [] := by
  cases T with
  | Func => cases h
  | Expr => cases h
  | other t =>
    simp only [SingleArgInferrer] at h ⊢
    by_cases hc : (t.is_scalar && (t.is_int || t.is_uint || t.is_float)) = true
    · rw [if_pos hc] at h
      cases h
    · rw [if_neg hc]

/-- An annotation built with `Constant` does not merge with the descriptor
inferred for a type that is not classified as `Constant`. -/
theorem constant_annotation_fails (n v : String) (T : CppType) (sk : Bool) (r : SingleArg)
    (hk : (SingleArgInferrer T).kind ≠ Kind.Constant) :
    SingleArg.«match» (Constant n v) (SingleArgInferrer T) sk ≠ Except.ok r := by
  intro h
  obtain ⟨-, -, h2, h3, -⟩ := (match_ok_iff _ _ _ _).1 h
  by_cases hu : (SingleArgInferrer T).kind = Kind.Unknown
  · have ht := inferrer_unknown_types T hu
    rw [get_matching_value_unspecified _ _ _ _
      (by simp [is_specified_types, Constant, InputOrConstant])
      (by simp [is_specified_types, ht])] at h3
    cases h3
  · rw [get_matching_value_conflict _ _ _ _
      (by simp [is_specified_kind, Constant, InputOrConstant])
      ((is_specified_kind _).2 hu)
      (by
        show Kind.Constant ≠ (SingleArgInferrer T).kind
        exact fun e => hk e.symm)] at h2
    cases h2

/-- The merge of an annotation whose kind is `Unknown` takes the inferred kind. -/
theorem match_ok_kind_of_unknown (a i r : SingleArg) (sk : Bool)
    (ha : a.kind = Kind.Unknown) (h : SingleArg.«match» a i sk = Except.ok r) :
    r.kind = i.kind := by
  obtain ⟨-, -, h2, -⟩ := (match_ok_iff _ _ _ _).1 h
  rcases get_matching_value_ok _ _ _ _ _ h2 with ⟨hs, -, -⟩ | ⟨-, -, e⟩
  · exact absurd ha ((is_specified_kind _).1 hs)
  · exact e

/-- With both default values empty, a failing `SingleArg::match` that skips the
default value raises a user error. -/
theorem match_skip_error_is_user (a i : SingleArg) (e : Failure)
    (ha : a.default_value = "") (hi : i.default_value = "")
    (h : SingleArg.«match» a i true = Except.error e) : e.is_user = true := by
  rcases match_error_cases a i true e h with hu | ⟨-, -, hn, n, k, t, d, h1, h2, h3, h4⟩
  · exact hu
  · have h5 := (match_default_skip a i "").2 ⟨ha, hi, rfl⟩
    rw [(match_ok_iff a i ⟨n, k, t, d, ""⟩ true).2 ⟨hn, h1, h2, h3, h4, h5⟩] at h
    cases h

/-- The conversion `to_arginfo` fails only on the kinds `Unknown` and
`Constant`. -/
theorem to_arginfo_error (m : SingleArg) (e : Failure) (h : to_arginfo m = Except.error e) :
    m.kind = Kind.Unknown ∨ m.kind = Kind.Constant := by
  unfold to_arginfo at h
  cases hk : m.kind <;>
    simp [hk, to_iokind, bind, Except.bind, pure, Except.pure, throw, throwThe,
      MonadExceptOf.throw] at h ⊢

/-- The conversion `to_iokind` yields `Buffer` only for the kind `Buffer`. -/
theorem to_iokind_buffer (k : Kind) (h : to_iokind k = Except.ok IOKind.Buffer) :
    k = Kind.Buffer := by
  cases k <;> simp [to_iokind, pure, Except.pure, throw, throwThe, MonadExceptOf.throw] at h ⊢

/-- For an annotation made by `Constant` or `Input`, a failing step of the loop
raises a user error. -/
theorem process_arg_built_error_is_user (d : ArgInfoDetector) (a : SingleArg) (T : CppType)
    (e : Failure)
    (ha : (∃ n v, a = Constant n v) ∨ (∃ n t dims, a = Input n t dims))
    (h : process_arg d a (SingleArgInferrer T) = Except.error e) : e.is_user = true := by
  rw [process_arg_eq] at h
  cases hm : SingleArg.«match» a (SingleArgInferrer T)
      (!((SingleArgInferrer T).kind == Kind.Constant)) with
  | error e1 =>
    rw [hm] at h
    cases h
    rcases match_error_cases _ _ _ _ hm with hu | ⟨hs, -, hn, n, k, t, dims, h1, h2, h3, h4⟩
    · exact hu
    · rw [hs] at hm
      rcases ha with ⟨n1, v1, rfl⟩ | ⟨n1, t1, d1, rfl⟩
      · have hk : (SingleArgInferrer T).kind ≠ Kind.Constant := by
          intro hk
          rw [skip_of_constant _ hk] at hs
          cases hs
        exfalso
        by_cases hu : (SingleArgInferrer T).kind = Kind.Unknown
        · have ht := inferrer_unknown_types T hu
          rw [get_matching_value_unspecified _ _ _ _
            (by simp [is_specified_types, Constant, InputOrConstant])
            (by simp [is_specified_types, ht])] at h3
          cases h3
        · rw [get_matching_value_conflict _ _ _ _
            (by simp [is_specified_kind, Constant, InputOrConstant])
            ((is_specified_kind _).2 hu)
            (by
              show Kind.Constant ≠ (SingleArgInferrer T).kind
              exact fun e => hk e.symm)] at h2
          cases h2
      · exact match_skip_error_is_user _ _ _ rfl (inferrer_default T) hm
  | ok m =>
    rw [hm, except_bind_ok] at h
    by_cases hk : (SingleArgInferrer T).kind = Kind.Constant
    · rw [if_pos hk] at h
      cases h
    · rw [if_neg hk] at h
      exfalso
      cases hx : to_arginfo m with
      | ok x => rw [hx] at h; cases h
      | error e2 =>
        rcases ha with ⟨n1, v1, rfl⟩ | ⟨n1, t1, d1, rfl⟩
        · exact constant_annotation_fails n1 v1 T _ m hk hm
        · have hkind := match_ok_kind_of_unknown _ _ _ _ rfl hm
          rcases to_arginfo_error m e2 hx with hu | hc
          · exact (match_ok_specified _ _ _ _ hm).2.1 hu
          · exact hk (hkind ▸ hc)

/-- For annotations made by `Constant` or `Input`, a failing loop raises a user
error. -/
theorem process_args_built_error_is_user (as : List SingleArg) (ts : List CppType)
    (d : ArgInfoDetector) (e : Failure)
    (ha : ∀ a ∈ as, (∃ n v, a = Constant n v) ∨ (∃ n t dims, a = Input n t dims))
    (h : process_args as (ts.map SingleArgInferrer) d = Except.error e) :
    e.is_user = true := by
  induction as generalizing ts d with
  | nil => cases ts <;> simp [process_args, pure, Except.pure] at h
  | cons a as ih =>
    cases ts with
    | nil => simp [process_args, pure, Except.pure] at h
    | cons T ts =>
      rw [List.map_cons, process_args_cons] at h
      cases hd : process_arg d a (SingleArgInferrer T) with
      | error e1 =>
        rw [hd] at h
        cases h
        exact process_arg_built_error_is_user d a T _ (ha a (List.mem_cons_self _ _)) hd
      | ok d2 =>
        rw [hd, except_bind_ok] at h
        exact ih ts d2 (fun b hb => ha b (List.mem_cons_of_mem _ hb)) h

/-- An annotation made by `Constant` or `Input` does not merge with the
descriptor inferred for a type classified as `Unknown`. -/
theorem built_annotation_unknown_fails (a : SingleArg) (T : CppType) (sk : Bool)
    (r : SingleArg)
    (ha : (∃ n v, a = Constant n v) ∨ (∃ n t dims, a = Input n t dims))
    (hT : (SingleArgInferrer T).kind = Kind.Unknown) :
    SingleArg.«match» a (SingleArgInferrer T) sk ≠ Except.ok r := by
  rcases ha with ⟨n, v, rfl⟩ | ⟨n, t, dims, rfl⟩
  · exact constant_annotation_fails n v T sk r (by rw [hT]; exact fun h => by cases h)
  · intro h
    have hkind := match_ok_kind_of_unknown _ _ _ _ rfl h
    exact (match_ok_specified _ _ _ _ h).2.1 (hkind.trans hT)

end builder_lemmas

section builder_claims

open SingleArg ArgInfoDetector

/-- C19: when every annotation is made by `Constant` or `Input` and the output
annotation by `Output`, the construction never fails with an internal error:
every failure of the construction is a user error. -/
theorem C19_builders_no_internal_error (args : List CppType) (ret : CppType)
    (inputs : List SingleArg) (output : SingleArg) (e : Failure)
    (hin : ∀ a ∈ inputs, (∃ n v, a = Constant n v) ∨ (∃ n t dims, a = Input n t dims))
    (hout : ∃ n t dims, output = Output n t dims)
    (h : construct args ret inputs output = Except.error e) : e.is_user = true := by
  rw [construct_eq] at h
  by_cases hl : args.length = inputs.length
  swap
  · rw [if_neg hl] at h
    cases h
    rfl
  rw [if_pos hl] at h
  cases hp : process_args inputs (args.map SingleArgInferrer) ⟨[], [], []⟩ with
  | error e0 =>
    rw [hp] at h
    cases h
    exact process_args_built_error_is_user _ _ _ _ hin hp
  | ok d0 =>
    rw [hp, except_bind_ok] at h
    by_cases hk : (SingleArgInferrer ret).kind = Kind.Constant
    · rw [if_pos hk] at h
      cases h
      rfl
    rw [if_neg hk] at h
    obtain ⟨n, t, dims, rfl⟩ := hout
    cases hm : SingleArg.«match» (Output n t dims) (SingleArgInferrer ret) true with
    | error e1 =>
      rw [hm] at h
      cases h
      exact match_skip_error_is_user _ _ _ rfl (inferrer_default ret) hm
    | ok m =>
      rw [hm, except_bind_ok] at h
      exfalso
      cases hx : to_arginfo m with
      | ok x => rw [hx] at h; cases h
      | error e2 =>
        have hkind := match_ok_kind_of_unknown _ _ _ _ rfl hm
        rcases to_arginfo_error m e2 hx with hu | hc
        · exact (match_ok_specified _ _ _ _ hm).2.1 hu
        · exact hk (hkind ▸ hc)

/-- A `Constant` annotation with a default value on the `Func` parameter of a
callable `Func (Func)` is an instance of C19: the construction fails with the
user error of a kind mismatch. -/
theorem C19_builders_no_internal_error_witness :
    construct [CppType.Func] CppType.Func [Constant "input" "2"]
        (Output_type_dims "output" (Int_ 32) 2)
      = Except.error (Failure.mismatch "input" "kind") ∧
    Failure.is_user (Failure.mismatch "input" "kind") = true :=
  ⟨by rfl,
    C19_builders_no_internal_error [CppType.Func] CppType.Func [Constant "input" "2"]
      (Output_type_dims "output" (Int_ 32) 2) (Failure.mismatch "input" "kind")
      (fun _ ha => Or.inl ⟨"input", "2", List.mem_singleton.1 ha⟩)
      ⟨"output", [Int_ 32], 2, rfl⟩ (by rfl)⟩

/-- C20: when every annotation is made by `Constant` or `Input` and the output
annotation by `Output`, the construction fails as soon as a parameter type or
the return type is classified as `Unknown`; hence no entry of `inputs()` or
`outputs()` of a constructed detector has the kind `Buffer`. -/
theorem C20_builders_unknown_fails (args : List CppType) (ret : CppType)
    (inputs : List SingleArg) (output : SingleArg)
    (hin : ∀ a ∈ inputs, (∃ n v, a = Constant n v) ∨ (∃ n t dims, a = Input n t dims))
    (hout : ∃ n t dims, output = Output n t dims) :
    (((∃ T ∈ args, (SingleArgInferrer T).kind = Kind.Unknown) ∨
        (SingleArgInferrer ret).kind = Kind.Unknown) →
      ∃ e, construct args ret inputs output = Except.error e) ∧
    (∀ d, construct args ret inputs output = Except.ok d →
      (∀ x ∈ d.inputs, x.kind ≠ IOKind.Buffer) ∧
      (∀ x ∈ d.outputs, x.kind ≠ IOKind.Buffer)) := by
  obtain ⟨n0, t0, dims0, rfl⟩ := hout
  constructor
  · intro hcase
    cases hc : construct args ret inputs (Output n0 t0 dims0) with
    | error e => exact ⟨e, rfl⟩
    | ok d =>
      exfalso
      obtain ⟨hl, d0, hp, -, m, hm, -⟩ := (construct_ok_iff _ _ _ _ _).1 hc
      rcases hcase with ⟨T, hT, hu⟩ | hu
      · obtain ⟨k, hk⟩ := List.mem_iff_getElem?.1 hT
        have hlt : k < inputs.length := by
          obtain ⟨hlt, -⟩ := List.getElem?_eq_some.1 hk
          omega
        have ha : inputs[k]? = some (inputs.get ⟨k, hlt⟩) := List.getElem?_eq_getElem hlt
        have hbuilt := hin _ (List.getElem?_mem ha)
        have hfail : ∀ d1, ∃ e,
            process_arg d1 (inputs.get ⟨k, hlt⟩) (SingleArgInferrer T) = Except.error e ∧
              e.is_user = true := by
          intro d1
          cases hd : process_arg d1 (inputs.get ⟨k, hlt⟩) (SingleArgInferrer T) with
          | error e => exact ⟨e, rfl, process_arg_built_error_is_user _ _ _ _ hbuilt hd⟩
          | ok d2 =>
            obtain ⟨m1, hm1, -⟩ := process_arg_ok_cases _ _ _ _ hd
            exact absurd hm1 (built_annotation_unknown_fails _ T _ m1 hbuilt hu)
        obtain ⟨e, he⟩ := construct_fails_at args ret inputs (Output n0 t0 dims0) k _ T ha hk hfail
        rw [hc] at he
        cases he
      · have hkind := match_ok_kind_of_unknown _ _ _ _ rfl hm
        exact (match_ok_specified _ _ _ _ hm).2.1 (hkind.trans hu)
  · intro d hc
    obtain ⟨hl, d0, hp, hk, m, hm, x, hx, rfl⟩ := (construct_ok_iff _ _ _ _ _).1 hc
    constructor
    · intro y hy hb
      have hy0 : y ∈ d0.inputs_ := hy
      rcases process_args_inputs_origin _ _ _ _ hp y hy0 with h0 | h0
      · cases h0
      · obtain ⟨a, ha, T, -, hkT, m1, hm1, hy1⟩ := h0
        rcases hin a ha with ⟨n, v, rfl⟩ | ⟨n, t, dims, rfl⟩
        · exact constant_annotation_fails n v T true m1 hkT hm1
        · have hkind := match_ok_kind_of_unknown _ _ _ _ rfl hm1
          have hio := (to_arginfo_ok m1 y hy1).2.2.2.1
          rw [hb] at hio
          exact inferrer_kind_ne_buffer T (hkind ▸ to_iokind_buffer _ hio)
    · intro y hy hb
      have hy0 : y ∈ d0.outputs_ ++ [x] := hy
      rw [(process_args_ok _ _ _ _ hp).1] at hy0
      have hyx : y = x := by simpa using hy0
      subst hyx
      have hkind := match_ok_kind_of_unknown _ _ _ _ rfl hm
      have hio := (to_arginfo_ok m y hx).2.2.2.1
      rw [hb] at hio
      exact inferrer_kind_ne_buffer ret (hkind ▸ to_iokind_buffer _ hio)

/-- A callable `Func (void *)` with an `Input` annotation is an instance of
C20: the construction fails. -/
theorem C20_builders_unknown_fails_witness :
    ∃ e, construct [CppType.other ⟨TypeCode.Handle, 64, 1⟩] CppType.Func
      [Input_type_dims "buffer" (Int_ 32) 2] (Output_type_dims "output" (Int_ 32) 2)
      = Except.error e :=
  (C20_builders_unknown_fails [CppType.other ⟨TypeCode.Handle, 64, 1⟩] CppType.Func
    [Input_type_dims "buffer" (Int_ 32) 2] (Output_type_dims "output" (Int_ 32) 2)
    (fun _ ha => Or.inr ⟨"buffer", [Int_ 32], 2, List.mem_singleton.1 ha⟩)
    ⟨"output", [Int_ 32], 2, rfl⟩).1
    (Or.inl ⟨CppType.other ⟨TypeCode.Handle, 64, 1⟩, List.mem_singleton.2 rfl, rfl⟩)

end builder_claims

/-! ## The generator adapter -/

section generator_lemmas

/-- The keys after an assignment are the assigned key and the keys before. -/
theorem StringMap.mem_keys_assign (m : StringMap) (k v x : String) :
    x ∈ (m.assign k v).keys ↔ x = k ∨ x ∈ m.keys := by
  induction m with
  | nil => simp [StringMap.assign, StringMap.keys]
  | cons p rest ih =>
    obtain ⟨k1, v1⟩ := p
    simp only [StringMap.assign]
    by_cases h1 : k < k1
    · rw [if_pos h1]
      simp [StringMap.keys]
    · rw [if_neg h1]
      by_cases h2 : k = k1
      · rw [if_pos h2]
        subst h2
        simp [StringMap.keys]
      · rw [if_neg h2]
        simp only [StringMap.keys, List.map_cons, List.mem_cons] at ih ⊢
        rw [ih]
        tauto

/-- After an assignment the assigned key maps to the assigned value. -/
theorem StringMap.find_assign_self (m : StringMap) (k v : String) :
    (m.assign k v).find k = some v := by
  induction m with
  | nil => simp [StringMap.assign, StringMap.find]
  | cons p rest ih =>
    obtain ⟨k1, v1⟩ := p
    simp only [StringMap.assign]
    by_cases h1 : k < k1
    · rw [if_pos h1]
      simp [StringMap.find]
    · rw [if_neg h1]
      by_cases h2 : k = k1
      · rw [if_pos h2]
        simp [StringMap.find]
      · rw [if_neg h2]
        simp only [StringMap.find]
        rw [if_neg h2, ih]

/-- An assignment leaves the values of the other keys unchanged. -/
theorem StringMap.find_assign_other (m : StringMap) (k v x : String) (hx : x ≠ k) :
    (m.assign k v).find x = m.find x := by
  induction m with
  | nil => simp [StringMap.assign, StringMap.find, hx]
  | cons p rest ih =>
    obtain ⟨k1, v1⟩ := p
    simp only [StringMap.assign]
    by_cases h1 : k < k1
    · rw [if_pos h1]
      simp only [StringMap.find]
      rw [if_neg hx]
    · rw [if_neg h1]
      by_cases h2 : k = k1
      · rw [if_pos h2]
        subst h2
        simp only [StringMap.find]
        rw [if_neg hx, if_neg hx]
      · rw [if_neg h2]
        simp only [StringMap.find]
        rw [ih]

/-- The member `count` is 1 exactly on the keys of the map. -/
theorem StringMap.count_eq_one_iff (m : StringMap) (k : String) :
    m.count k = 1 ↔ k ∈ m.keys := by
  unfold StringMap.count StringMap.keys
  by_cases h : m.any (fun p => p.1 == k) = true
  · rw [if_pos h]
    simp only [List.any_eq_true, beq_iff_eq] at h
    obtain ⟨p, hp, rfl⟩ := h
    simp only [List.mem_map, true_iff]
    exact ⟨p, hp, rfl⟩
  · rw [if_neg h]
    simp only [List.any_eq_true, beq_iff_eq, not_exists, not_and] at h
    simp only [Nat.zero_ne_one, List.mem_map, false_iff, not_exists, not_and]
    exact fun p hp => h p hp

/-- The keys of the map built by `init_generatorparams` are the names of the
constants. -/
theorem G2Generator.mem_keys_init_generatorparams (constants : List SingleArg) (x : String) :
    x ∈ (G2Generator.init_generatorparams constants).keys ↔
      x ∈ constants.map SingleArg.name := by
  have hgen : ∀ (cs : List SingleArg) (m : StringMap),
      x ∈ (cs.foldl (fun result c => result.assign c.name c.default_value) m).keys ↔
        x ∈ m.keys ∨ x ∈ cs.map SingleArg.name := by
    intro cs
    induction cs with
    | nil => intro m; simp
    | cons c cs ih =>
      intro m
      rw [List.foldl_cons, ih, StringMap.mem_keys_assign]
      simp only [List.map_cons, List.mem_cons]
      tauto
  have h0 := hgen constants []
  simpa [StringMap.keys] using h0

/-- The two assertions of `set_generatorparam_value` in sequence. -/
theorem G2Generator.set_generatorparam_value_eq {τ : Type} (g : G2Generator τ)
    (name value : String) :
    g.set_generatorparam_value name value =
      if g.pipeline_.defined = true then
        Except.error (GeneratorFailure.called_after_build "set_generatorparam_value")
      else if name ∈ g.get_generatorparam_names then
        Except.ok ⟨g.target_info_, g.name_, g.inputs_, g.outputs_,
          g.generatorparams_.assign name value, g.pipeline_⟩
      else Except.error (GeneratorFailure.unknown_constant name) := by
  unfold G2Generator.set_generatorparam_value G2Generator.get_generatorparam_names
  by_cases hp : g.pipeline_.defined = true
  · simp [hp, generator_user_assert, bind, Except.bind, throw, throwThe, MonadExceptOf.throw]
  · by_cases hk : name ∈ g.generatorparams_.keys
    · have hc := (StringMap.count_eq_one_iff _ _).2 hk
      simp [hp, hk, hc, generator_user_assert, bind, Except.bind, pure, Except.pure]
    · have hc : ¬ g.generatorparams_.count name = 1 :=
        fun h => hk ((StringMap.count_eq_one_iff _ _).1 h)
      simp [hp, hk, hc, generator_user_assert, bind, Except.bind, pure, Except.pure, throw,
        throwThe, MonadExceptOf.throw]

end generator_lemmas

section generator_claims

/-- C13: a generator built from a detector has an undefined pipeline, the names
of the constants of the detector as parameter names, and the inputs and outputs
of the detector. On a generator whose pipeline is undefined,
`set_generatorparam_value(name, value)` fails with a user error when `name` is
not a parameter name, and otherwise succeeds, making `name` map to `value` and
leaving the other values, the set of parameter names, the inputs, the outputs
and the pipeline unchanged. It fails with a user error whenever the pipeline is
defined. -/
theorem C13_set_generatorparam_value {τ : Type} (d : ArgInfoDetector) (n v : String) :
    (∀ (ti : τ) (gname : String),
      (G2Generator.construct ti gname d).pipeline_.defined = false ∧
      (∀ x, x ∈ (G2Generator.construct ti gname d).get_generatorparam_names ↔
        x ∈ d.constants.map SingleArg.name) ∧
      (G2Generator.construct ti gname d).get_input_arginfos = d.inputs ∧
      (G2Generator.construct ti gname d).get_output_arginfos = d.outputs) ∧
    (∀ g : G2Generator τ, g.pipeline_.defined = false →
      (n ∉ g.get_generatorparam_names →
        g.set_generatorparam_value n v
            = Except.error (GeneratorFailure.unknown_constant n) ∧
          (GeneratorFailure.unknown_constant n).is_user = true) ∧
      (n ∈ g.get_generatorparam_names →
        ∃ g1, g.set_generatorparam_value n v = Except.ok g1 ∧
          g1.generatorparams_.find n = some v ∧
          (∀ x, x ≠ n → g1.generatorparams_.find x = g.generatorparams_.find x) ∧
          (∀ x, x ∈ g1.get_generatorparam_names ↔ x ∈ g.get_generatorparam_names) ∧
          g1.get_input_arginfos = g.get_input_arginfos ∧
          g1.get_output_arginfos = g.get_output_arginfos ∧
          g1.pipeline_ = g.pipeline_)) ∧
    (∀ g : G2Generator τ, g.pipeline_.defined = true →
      g.set_generatorparam_value n v
          = Except.error (GeneratorFailure.called_after_build "set_generatorparam_value") ∧
        (GeneratorFailure.called_after_build "set_generatorparam_value").is_user = true) := by
  refine ⟨fun ti gname => ⟨rfl, fun x => ?_, rfl, rfl⟩, fun g hp => ⟨fun hn => ?_, fun hn => ?_⟩,
    fun g hp => ?_⟩
  · exact G2Generator.mem_keys_init_generatorparams d.constants x
  · rw [G2Generator.set_generatorparam_value_eq, if_neg (by simp [hp]), if_neg hn]
    exact ⟨rfl, rfl⟩
  · rw [G2Generator.set_generatorparam_value_eq, if_neg (by simp [hp]), if_pos hn]
    refine ⟨_, rfl, StringMap.find_assign_self _ _ _,
      fun x hx => StringMap.find_assign_other _ _ _ _ hx, fun x => ?_, rfl, rfl, rfl⟩
    show x ∈ (g.generatorparams_.assign n v).keys ↔ x ∈ g.generatorparams_.keys
    rw [StringMap.mem_keys_assign]
    constructor
    · rintro (h | h)
      · rw [h]; exact hn
      · exact h
    · exact Or.inr
  · rw [G2Generator.set_generatorparam_value_eq, if_pos hp]
    exact ⟨rfl, rfl⟩

/-- Setting the constant `scaling` of the generator built from the detector of
`g2_test`, and setting a name that is not a constant, are instances of C13. -/
theorem C13_set_generatorparam_value_witness :
    (∃ g1, (G2Generator.construct () "g2"
          ⟨[⟨"scaling", SingleArg.Kind.Constant, [Int_ 32], 0, "2"⟩],
            [⟨"input", IOKind.Function, [Int_ 32], 2⟩,
              ⟨"offset", IOKind.Scalar, [Int_ 32], 0⟩],
            [⟨"output", IOKind.Function, [Int_ 32], 2⟩]⟩).set_generatorparam_value
          "scaling" "3" = Except.ok g1 ∧
        g1.generatorparams_.find "scaling" = some "3") ∧
    (G2Generator.construct () "g2"
        ⟨[⟨"scaling", SingleArg.Kind.Constant, [Int_ 32], 0, "2"⟩],
          [⟨"input", IOKind.Function, [Int_ 32], 2⟩,
            ⟨"offset", IOKind.Scalar, [Int_ 32], 0⟩],
          [⟨"output", IOKind.Function, [Int_ 32], 2⟩]⟩).set_generatorparam_value
        "offset" "3" = Except.error (GeneratorFailure.unknown_constant "offset") :=
  ⟨(((C13_set_generatorparam_value
        (⟨[⟨"scaling", SingleArg.Kind.Constant, [Int_ 32], 0, "2"⟩],
          [⟨"input", IOKind.Function, [Int_ 32], 2⟩,
            ⟨"offset", IOKind.Scalar, [Int_ 32], 0⟩],
          [⟨"output", IOKind.Function, [Int_ 32], 2⟩]⟩ : ArgInfoDetector)
        "scaling" "3").2.1 (G2Generator.construct () "g2" _) rfl).2 (by decide)).elim
      (fun g1 h => ⟨g1, h.1, h.2.1⟩),
    (((C13_set_generatorparam_value
        (⟨[⟨"scaling", SingleArg.Kind.Constant, [Int_ 32], 0, "2"⟩],
          [⟨"input", IOKind.Function, [Int_ 32], 2⟩,
            ⟨"offset", IOKind.Scalar, [Int_ 32], 0⟩],
          [⟨"output", IOKind.Function, [Int_ 32], 2⟩]⟩ : ArgInfoDetector)
        "offset" "3").2.1 (G2Generator.construct () "g2" _) rfl).1 (by decide)).1⟩

end generator_claims

/-! ## The life cycle of the generator -/

section lifecycle_lemmas

/-- A successful `set_generatorparam_value` leaves the pipeline as it was. -/
theorem G2Generator.set_generatorparam_value_pipeline {τ : Type} (g g1 : G2Generator τ)
    (name value : String) (h : g.set_generatorparam_value name value = Except.ok g1) :
    g1.pipeline_ = g.pipeline_ := by
  rw [G2Generator.set_generatorparam_value_eq] at h
  by_cases hp : g.pipeline_.defined = true
  · rw [if_pos hp] at h
    cases h
  · rw [if_neg hp] at h
    by_cases hk : name ∈ g.get_generatorparam_names
    · rw [if_pos hk] at h
      cases h
      rfl
    · rw [if_neg hk] at h
      cases h

/-- No call changes the pipeline of the generator. -/
theorem G2Generator.after_pipeline {τ : Type} (g : G2Generator τ) (c : G2Generator.Call) :
    (g.after c).pipeline_ = g.pipeline_ := by
  cases c with
  | set_generatorparam_value name value =>
    simp only [G2Generator.after]
    cases h : g.set_generatorparam_value name value with
    | ok g1 => exact G2Generator.set_generatorparam_value_pipeline g g1 name value h
    | error e => rfl
  | _ => rfl

/-- No sequence of calls changes the pipeline of the generator. -/
theorem G2Generator.run_pipeline {τ : Type} (g : G2Generator τ)
    (calls : List G2Generator.Call) : (g.run calls).pipeline_ = g.pipeline_ := by
  induction calls generalizing g with
  | nil => rfl
  | cons c calls ih =>
    show ((g.after c).run calls).pipeline_ = g.pipeline_
    rw [ih, G2Generator.after_pipeline]

/-- The member `build_pipeline` on a generator whose pipeline is undefined
passes its first assertion and fails at the second. -/
theorem G2Generator.build_pipeline_undefined {τ : Type} (g : G2Generator τ)
    (h : g.pipeline_.defined = false) :
    g.build_pipeline = Except.error GeneratorFailure.no_pipeline_built := by
  unfold G2Generator.build_pipeline
  simp [h, generator_user_assert, bind, Except.bind, pure, Except.pure, throw, throwThe,
    MonadExceptOf.throw]

/-- The member `build_pipeline` on a generator whose pipeline is defined fails
at its first assertion. -/
theorem G2Generator.build_pipeline_defined {τ : Type} (g : G2Generator τ)
    (h : g.pipeline_.defined = true) :
    g.build_pipeline
      = Except.error (GeneratorFailure.called_after_build "build_pipeline") := by
  unfold G2Generator.build_pipeline
  simp [h, generator_user_assert, bind, Except.bind, throw, throwThe, MonadExceptOf.throw]

end lifecycle_lemmas

section lifecycle_claims

/-- C21: in every state reached from the construction of a generator by a
sequence of calls of its members, the pipeline is undefined: `build_pipeline`
fails (at its second assertion, and in any state whatever at one of the two),
the queries `get_parameters_for_input`, `get_funcs_for_output` and
`get_external_code_map` fail, and `set_generatorparam_value` never fails for
having been called after the build. -/
theorem C21_pipeline_never_defined {τ P F E : Type} (ti : τ) (gname : String)
    (d : ArgInfoDetector) (calls : List G2Generator.Call) :
    ((G2Generator.construct ti gname d).run calls).pipeline_.defined = false ∧
    (((G2Generator.construct ti gname d).run calls).build_pipeline
        = Except.error GeneratorFailure.no_pipeline_built ∧
      ∀ g : G2Generator τ, ∃ e, g.build_pipeline = Except.error e ∧ e.is_user = true) ∧
    (∀ n, (((G2Generator.construct ti gname d).run calls).get_parameters_for_input n :
        Except GeneratorFailure (List P))
      = Except.error (GeneratorFailure.called_before_build "get_parameters_for_input")) ∧
    (∀ n, (((G2Generator.construct ti gname d).run calls).get_funcs_for_output n :
        Except GeneratorFailure (List F))
      = Except.error (GeneratorFailure.called_before_build "get_funcs_for_output")) ∧
    ((((G2Generator.construct ti gname d).run calls).get_external_code_map :
        Except GeneratorFailure (List E))
      = Except.error (GeneratorFailure.called_before_build "get_external_code_map")) ∧
    (∀ n v, ((G2Generator.construct ti gname d).run calls).set_generatorparam_value n v
      ≠ Except.error (GeneratorFailure.called_after_build "set_generatorparam_value")) := by
  have hp : ((G2Generator.construct ti gname d).run calls).pipeline_.defined = false := by
    rw [G2Generator.run_pipeline]
    rfl
  refine ⟨hp, ⟨G2Generator.build_pipeline_undefined _ hp, fun g => ?_⟩, fun n => ?_,
    fun n => ?_, ?_, fun n v => ?_⟩
  · cases hg : g.pipeline_.defined with
    | false => exact ⟨_, G2Generator.build_pipeline_undefined g hg, rfl⟩
    | true => exact ⟨_, G2Generator.build_pipeline_defined g hg, rfl⟩
  · unfold G2Generator.get_parameters_for_input
    simp [hp, generator_user_assert, bind, Except.bind, throw, throwThe, MonadExceptOf.throw]
  · unfold G2Generator.get_funcs_for_output
    simp [hp, generator_user_assert, bind, Except.bind, throw, throwThe, MonadExceptOf.throw]
  · unfold G2Generator.get_external_code_map
    simp [hp, generator_user_assert, bind, Except.bind, throw, throwThe, MonadExceptOf.throw]
  · rw [G2Generator.set_generatorparam_value_eq, if_neg (by simp [hp])]
    split_ifs <;> exact fun h => by cases h

/-- The generator of `g2_test` after a build attempt, a change of `scaling` and
a second build attempt is an instance of C21: the second attempt fails like the
first one. -/
theorem C21_pipeline_never_defined_witness :
    ((G2Generator.construct () "g2"
        ⟨[⟨"scaling", SingleArg.Kind.Constant, [Int_ 32], 0, "2"⟩],
          [⟨"input", IOKind.Function, [Int_ 32], 2⟩,
            ⟨"offset", IOKind.Scalar, [Int_ 32], 0⟩],
          [⟨"output", IOKind.Function, [Int_ 32], 2⟩]⟩).run
        [G2Generator.Call.build_pipeline,
          G2Generator.Call.set_generatorparam_value "scaling" "3",
          G2Generator.Call.build_pipeline]).build_pipeline
      = Except.error GeneratorFailure.no_pipeline_built :=
  (@C21_pipeline_never_defined Unit Unit Unit Unit () "g2"
    ⟨[⟨"scaling", SingleArg.Kind.Constant, [Int_ 32], 0, "2"⟩],
      [⟨"input", IOKind.Function, [Int_ 32], 2⟩,
        ⟨"offset", IOKind.Scalar, [Int_ 32], 0⟩],
      [⟨"output", IOKind.Function, [Int_ 32], 2⟩]⟩
    [G2Generator.Call.build_pipeline,
      G2Generator.Call.set_generatorparam_value "scaling" "3",
      G2Generator.Call.build_pipeline]).2.1.1

end lifecycle_claims

end Halide
